import Mathlib

/-!
# Gridsome: route manifest generation and plugin action façades

A shallow embedding of

* `gridsome/lib/app/codegen/routes.js` (`genRoutes`),
* `gridsome/lib/app/actions.js` (`createBaseActions`, `createStoreActions`,
  `createSchemaActions`, `createPagesActions`, `createManagedPagesActions`),

followed by the properties proved about them.

JavaScript properties that may be absent are `Option` values (`none` is
`undefined`); truthiness, `||` and default parameters are spelled out.
-/

set_option autoImplicit false
set_option maxRecDepth 100000

namespace Gridsome

/-! ## JavaScript basics -/

/-- An exception thrown by the JavaScript code: `throw new Error(msg)` or a
`TypeError` raised by the runtime (reading a property of `undefined`). -/
inductive JsError where
  | error (msg : String)
  | typeError (msg : String)
  deriving DecidableEq, Repr

/-- Truthiness of a string-or-undefined value: `undefined` and `''` are falsy. -/
def truthy : Option String → Bool
  | none => false
  | some s => s != ""

/-- The JavaScript `a || b` on string-or-undefined values. -/
def jsOr (a b : Option String) : Option String :=
  if truthy a then a else b

/-- One hexadecimal digit, lower case. -/
def hexDigit (n : Nat) : Char :=
  if n < 10 then Char.ofNat (48 + n) else Char.ofNat (87 + n)

/-- How `JSON.stringify` writes one character inside a string literal. -/
def jsonEscapeChar (c : Char) : String :=
  if c = '"' then "\\\""
  else if c = '\\' then "\\\\"
  else if c = Char.ofNat 8 then "\\b"
  else if c = Char.ofNat 12 then "\\f"
  else if c = '\n' then "\\n"
  else if c = '\r' then "\\r"
  else if c = '\t' then "\\t"
  else if c.toNat < 32 then
    "\\u00" ++ String.mk [hexDigit (c.toNat / 16), hexDigit (c.toNat % 16)]
  else String.mk [c]

/-- `JSON.stringify` of a string. -/
def jsonStringify (s : String) : String :=
  "\"" ++ String.join (s.toList.map jsonEscapeChar) ++ "\""

/-- `JSON.stringify(v)` interpolated into a template literal: `undefined`
stays `undefined` and is printed as such. -/
def jsonStringifyOpt : Option String → String
  | none => "undefined"
  | some s => jsonStringify s

/-! ## Pages and the application object -/

/-- The `pageQuery` object of a page; `query` is absent when the page has no
data query. -/
structure PageQuery where
  query : Option String
  deriving DecidableEq, Repr

/-- A page as `genRoutes` reads it. -/
structure Page where
  name : Option String
  path : Option String
  route : Option String
  component : String
  chunkName : Option String
  pageQuery : PageQuery
  deriving DecidableEq, Repr

/-- An opaque compiled GraphQL schema object (always truthy). -/
structure GraphQLSchema where
  id : Nat
  deriving DecidableEq, Repr

/-! ## `codegen/routes.js` -/

/-- The object pushed onto `routes` as the fallback route (lines 10-16). -/
def fallbackPage (notFound : Page) : Page where
  pageQuery := notFound.pageQuery
  component := notFound.component
  chunkName := notFound.name
  name := some "*"
  path := some "*"
  route := none

/-- The data of one emitted route record: what the callback of `routes.map`
computes for a page before it is printed. `name` is present only when
`page.name` is truthy and `hasData` says whether `meta: { data: true }` is
emitted. -/
structure RouteRecord where
  name : Option String
  path : Option String
  component : String
  chunkName : String
  hasData : Bool
  deriving DecidableEq, Repr

/-- The record computed for one page (lines 19-32) once the value of
`page.chunkName || page.name` is known to be the string `source`. -/
def buildRecord (slugify : String → String) (page : Page) (source : String) : RouteRecord where
  name := if truthy page.name then page.name else none
  path := jsOr page.route page.path
  component := page.component
  chunkName := "component--" ++ slugify source
  hasData := truthy page.pageQuery.query

/-- The record the callback of `routes.map` computes for one page (lines
19-32). `slugify` is the external `@sindresorhus/slugify`: a function of
strings that throws a `TypeError` for any other argument, here `undefined`
when the page has neither a (non-empty) `chunkName` nor a `name`. -/
def routeRecord (slugify : String → String) (page : Page) : Except JsError RouteRecord :=
  match jsOr page.chunkName page.name with
  | none => .error (.typeError "Expected a string, got `undefined`")
  | some source => .ok (buildRecord slugify page source)

/-- The `props` array of a record, in its final order (lines 21-32). -/
def recordProps (r : RouteRecord) : List String :=
  let props :=
    [ "    path: " ++ jsonStringifyOpt r.path,
      "    component: () => import(/* webpackChunkName: " ++ jsonStringify r.chunkName
        ++ " */ " ++ jsonStringify r.component ++ ")" ]
  let props := if r.hasData then props ++ ["    meta: \x7b data: true \x7d"] else props
  match r.name with
  | some n => ("    name: " ++ jsonStringify n) :: props
  | none => props

/-- The text of one record (line 34). -/
def renderRecord (r : RouteRecord) : String :=
  "\n  \x7b\n" ++ ",\n".intercalate (recordProps r) ++ "\n  \x7d"

/-- The text of the whole manifest (lines 18 and 35). -/
def renderManifest (records : List RouteRecord) : String :=
  "export default [" ++ ",".intercalate (records.map renderRecord) ++ "\n]\n\n"

/-- The page `routes.find(route => route.name === '404')` returns. -/
def findNotFound (routes : List Page) : Option Page :=
  routes.find? (fun route => route.name == some "404")

/-- The call `routes.map(page => ...)` up to the records: the pages are
visited in order and the first exception thrown by the callback ends the call. -/
def mapRecords (slugify : String → String) : List Page → Except JsError (List RouteRecord)
  | [] => .ok []
  | page :: rest =>
    match routeRecord slugify page with
    | .error e => .error e
    | .ok r =>
      match mapRecords slugify rest with
      | .error e => .error e
      | .ok rs => .ok (r :: rs)

/-- The records of the manifest `genRoutes` prints: those of the pages of
`routes` followed by that of the fallback page. A `TypeError` is thrown when
no page is named `'404'` (`notFound.pageQuery` with `notFound` undefined) and,
after that, by the first page for which `slugify` throws. -/
def genRouteRecords (slugify : String → String) (routes : List Page) :
    Except JsError (List RouteRecord) :=
  match findNotFound routes with
  | none => .error (.typeError "Cannot read property 'pageQuery' of undefined")
  | some notFound => mapRecords slugify (routes ++ [fallbackPage notFound])

/-! ## JavaScript values, objects and calls (for `actions.js`) -/

/-- A JavaScript value as the actions pass it around. `ext` is an opaque
object or function of another module, known by name only. -/
inductive Val where
  | undefined
  | null
  | bool (b : Bool)
  | num (n : Int)
  | str (s : String)
  | obj (fields : List (String × Val))
  | ext (name : String)

/-- The `i`-th argument of a call: `undefined` when the caller passed fewer. -/
def arg (args : List Val) (i : Nat) : Val :=
  args.getD i Val.undefined

/-- A parameter with a default value, `(x = d)`: the default replaces exactly
`undefined`. -/
def withDefault (v d : Val) : Val :=
  match v with
  | Val.undefined => d
  | w => w

/-- Assignment `o[k] = v` on an object kept as its properties in insertion
order: an existing key keeps its place and takes the new value. -/
def setProp {α : Type} (o : List (String × α)) (k : String) (v : α) : List (String × α) :=
  match o with
  | [] => [(k, v)]
  | (k', v') :: rest => if k' = k then (k, v) :: rest else (k', v') :: setProp rest k v

/-- Property lookup `o[k]`. -/
def getProp {α : Type} (o : List (String × α)) (k : String) : Option α :=
  match o with
  | [] => none
  | (k', v') :: rest => if k' = k then some v' else getProp rest k

/-- The object literal with `base` spread first and then `props` in source
order (for a literal with no spread, `base` is `[]`). -/
def extend {α : Type} (base props : List (String × α)) : List (String × α) :=
  props.foldl (fun o kv => setProp o kv.1 kv.2) base

/-- The property names of an object, in order. -/
def names {α : Type} (o : List (String × α)) : List String :=
  o.map Prod.fst

/-- The lodash `pick(object, paths)` for plain keys: a new object with those of
`paths` that `object` has, in the order of `paths`. -/
def pick {α : Type} (object : List (String × α)) (paths : List String) : List (String × α) :=
  extend [] (paths.filterMap (fun p => (getProp object p).map (fun v => (p, v))))

/-! ## The collaborators of `actions.js`

None of them is defined in `actions.js`; each method is a parameter taking the
argument list of the call. Their results live in an arbitrary type `ρ`. -/

/-- The methods of `api.store` the actions call. -/
structure Store (ρ : Type) where
  addMetaData : List Val → ρ
  addContentType : List Val → ρ
  getContentType : List Val → ρ
  slugify : List Val → ρ
  createReference : List Val → ρ
  createTypeName : List Val → ρ

/-- The plugin `api` object. -/
structure Api (ρ : Type) where
  store : Store ρ

/-- The methods of `app.pages` the actions call. -/
structure Pages (ρ : Type) where
  createPage : List Val → ρ
  updatePage : List Val → ρ
  removePage : List Val → ρ
  removePageByPath : List Val → ρ
  removePagesByComponent : List Val → ρ
  findAndRemovePages : List Val → ρ
  findPage : List Val → ρ
  findPages : List Val → ρ

/-- The `app` object: the fields and methods `actions.js` and `routes.js` use. -/
structure App (ρ : Type) where
  routes : List Page
  schema : Option GraphQLSchema
  _schemas : List Val
  _schemaTypes : List Val
  _schemaResolvers : List Val
  graphql : List Val → ρ
  resolve : List Val → ρ
  pages : Pages ρ

/-- The constants of `CreatedGraphQLType` from `../graphql/utils`. -/
structure CreatedGraphQLTypes where
  Object : Val
  Union : Val
  Interface : Val
  InputObject : Val

/-- What `actions.js` takes from other modules: the md5 hex digest of
`crypto`, the exports of `graphql`, `graphql-type-json` and
`CreatedGraphQLType`. -/
structure Modules (ρ : Type) where
  md5Hex : List Val → ρ
  graphql : List (String × Val)
  GraphQLJSON : Val
  CreatedGraphQLType : CreatedGraphQLTypes

/-- What one call of an action does: throw, return what a collaborator's
method returns (`tail`), or complete by itself with a value and the `app`
fields as it leaves them (`ret`). -/
inductive Outcome (ρ : Type) where
  | throw (e : JsError)
  | tail (r : ρ)
  | ret (v : Val) (app : App ρ)

/-- An action: a function of its argument list. `app` is a reference to a
mutable object that the body reads when it is called, so the object as it is
at the call is an argument here. -/
abbrev Action (ρ : Type) := List Val → App ρ → Outcome ρ

/-- A property of a façade: an action, a plain value, or a nested object of
actions (`store`, `schema`). -/
inductive Entry (ρ : Type) where
  | action (f : Action ρ)
  | value (v : Val)
  | object (members : List (String × Action ρ))

/-- A façade: a plain object of entries. -/
abbrev Facade (ρ : Type) := List (String × Entry ρ)

/-- The function `genRoutes` of `codegen/routes.js`. -/
def genRoutes {ρ : Type} (slugify : String → String) (app : App ρ) :
    Except JsError String :=
  (genRouteRecords slugify app.routes).map renderManifest

/-! ## `actions.js` -/

section Actions

variable {ρ : Type}

/-- The action `graphql (docOrQuery, variables = {})` of lines 8-13. -/
def graphqlAction : Action ρ := fun args app =>
  match app.schema with
  | none => .throw (.error "actions.graphql() called before schema is generated.")
  | some _ => .tail (app.graphql [arg args 0, withDefault (arg args 1) (Val.obj [])])

/-- The function `createBaseActions (api, app)`; `app` is the object each
action is called with (see `Action`). -/
def createBaseActions (_api : Api ρ) : Facade ρ :=
  extend []
    [ ("graphql", .action graphqlAction),
      ("resolve", .action (fun args app => .tail (app.resolve args))) ]

/-- The function `createStoreActions (api, app)`; `env` holds what the file
takes from other modules. -/
def createStoreActions (env : Modules ρ) (api : Api ρ) : Facade ρ :=
  let baseActions := createBaseActions api
  extend baseActions
    [ ("addMetaData", .action (fun args _ => .tail (api.store.addMetaData [arg args 0, arg args 1]))),
      ("addContentType", .action (fun args _ => .tail (api.store.addContentType [arg args 0]))),
      ("getContentType", .action (fun args _ => .tail (api.store.getContentType [arg args 0]))),
      ("slugify", .action (fun args _ => .tail (api.store.slugify [arg args 0]))),
      ("store", .object
        [ ("createReference",
            fun args _ => .tail (api.store.createReference [arg args 0, arg args 1])) ]),
      ("createTypeName", .action (fun args _ => .tail (api.store.createTypeName [arg args 0]))),
      ("createReference",
        .action (fun args _ => .tail (api.store.createReference [arg args 0, arg args 1]))),
      ("makeUid", .action (fun args _ => .tail (env.md5Hex [arg args 0]))),
      ("makeTypeName",
        .action (fun args _ =>
          .tail (api.store.createTypeName [withDefault (arg args 0) (Val.str "")]))) ]

/-- The names picked from the `graphql` module (lines 69-89). -/
def graphqlTypeNames : List String :=
  [ "GraphQLSchema", "GraphQLScalarType", "GraphQLObjectType", "GraphQLInterfaceType",
    "GraphQLUnionType", "GraphQLEnumType", "GraphQLInputObjectType",
    "GraphQLList", "GraphQLNonNull",
    "GraphQLDeprecatedDirective",
    "GraphQLInt", "GraphQLFloat", "GraphQLString", "GraphQLBoolean", "GraphQLID" ]

/-- One of the four `schema.create…Type` builders:
`options => ({ options, type })`. -/
def createdType (type : Val) : Action ρ := fun args app =>
  .ret (Val.obj [("options", arg args 0), ("type", type)]) app

/-- The function `createSchemaActions (api, app)`. -/
def createSchemaActions (env : Modules ρ) (api : Api ρ) : Facade ρ :=
  let baseActions := createStoreActions env api
  let graphqlTypes := pick env.graphql graphqlTypeNames
  extend baseActions
    (graphqlTypes.map (fun kv => (kv.1, Entry.value kv.2)) ++
    [ ("GraphQLJSON", .value env.GraphQLJSON),
      ("addSchema", .action (fun args app =>
        .ret Val.undefined { app with _schemas := app._schemas ++ [arg args 0] })),
      ("addSchemaTypes", .action (fun args app =>
        .ret Val.undefined { app with _schemaTypes := app._schemaTypes ++ [arg args 0] })),
      ("addSchemaResolvers", .action (fun args app =>
        .ret Val.undefined { app with _schemaResolvers := app._schemaResolvers ++ [arg args 0] })),
      ("schema", .object
        [ ("createObjectType", createdType env.CreatedGraphQLType.Object),
          ("createUnionType", createdType env.CreatedGraphQLType.Union),
          ("createInterfaceType", createdType env.CreatedGraphQLType.Interface),
          ("createInputObjectType", createdType env.CreatedGraphQLType.InputObject) ]) ])

/-- The `internals` object `{ digest, isManaged }`. -/
def pageInternals (digest : Val) (isManaged : Bool) : Val :=
  Val.obj [("digest", digest), ("isManaged", Val.bool isManaged)]

/-- The function `createPagesActions (api, app, { digest })`. -/
def createPagesActions (api : Api ρ) (digest : Val) : Facade ρ :=
  let baseActions := createBaseActions api
  let internals := pageInternals digest false
  extend baseActions
    [ ("getContentType", .action (fun args _ => .tail (api.store.getContentType [arg args 0]))),
      ("createPage", .action (fun args app => .tail (app.pages.createPage [arg args 0, internals]))) ]

/-- The function `createManagedPagesActions (api, app, { digest })`. -/
def createManagedPagesActions (api : Api ρ) (digest : Val) : Facade ρ :=
  let baseActions := createPagesActions api digest
  let internals := pageInternals digest true
  extend baseActions
    [ ("createPage", .action (fun args app => .tail (app.pages.createPage [arg args 0, internals]))),
      ("updatePage", .action (fun args app => .tail (app.pages.updatePage [arg args 0, internals]))),
      ("removePage", .action (fun args app => .tail (app.pages.removePage [arg args 0]))),
      ("removePageByPath", .action (fun args app => .tail (app.pages.removePageByPath [arg args 0]))),
      ("removePagesByComponent",
        .action (fun args app => .tail (app.pages.removePagesByComponent [arg args 0]))),
      ("findAndRemovePages",
        .action (fun args app => .tail (app.pages.findAndRemovePages [arg args 0]))),
      ("findPage", .action (fun args app => .tail (app.pages.findPage [arg args 0]))),
      ("findPages", .action (fun args app => .tail (app.pages.findPages [arg args 0]))) ]

end Actions

/-! ## Concrete inputs -/

/-- A stand-in for the external `slugify` where a concrete evaluation needs
one: it returns a string unchanged (as the real one does on `404`, `home` and
`not-found`). Every general theorem below holds for all `slugify`. -/
def sampleSlugify : String → String :=
  fun s => s

/-- A page with the given name and path, no route, chunk name or query. -/
def plainPage (name path component : String) : Page where
  name := some name
  path := some path
  route := none
  component := component
  chunkName := none
  pageQuery := { query := none }

/-- Routes with a `404` page and a page whose own path is `*`. -/
def wildcardRoutes : List Page :=
  [plainPage "404" "/404" "NotFound.vue", plainPage "any" "*" "Any.vue"]

/-- Routes with two pages named `404`. -/
def twoNotFoundRoutes : List Page :=
  [ plainPage "home" "/" "Index.vue", plainPage "404" "/404" "NotFound.vue",
    plainPage "404" "/missing" "Missing.vue" ]

/-- Routes with no page named `404`. -/
def noNotFoundRoutes : List Page :=
  [plainPage "home" "/" "Index.vue", plainPage "about" "/about" "About.vue"]

/-- A `404` page that sets its own chunk name. -/
def customChunkNotFound : Page :=
  { plainPage "404" "/404" "NotFound.vue" with chunkName := some "not-found" }

/-- Routes with a `404` page and a page that has neither `name` nor
`chunkName`. -/
def unnamedRoutes : List Page :=
  [ plainPage "404" "/404" "NotFound.vue",
    { name := none, path := some "/about", route := none, component := "About.vue",
      chunkName := none, pageQuery := { query := none } } ]

/-- Routes that exercise every branch of the record callback: a page with a
data query, a page with a route pattern, a chunk name and no name, a page
with an empty route and query whose name and component need escaping, and a
`404` page with a data query. -/
def sampleRoutes : List Page :=
  [ { name := some "home", path := some "/", route := none, component := "/src/pages/Index.vue",
      chunkName := none, pageQuery := { query := some "query { posts }" } },
    { name := none, path := some "/blog/hello", route := some "/blog/:slug",
      component := "/src/templates/Post.vue", chunkName := some "post",
      pageQuery := { query := none } },
    { name := some (String.mk ['a', '"', 'b', '\\', 'c', '\n', '\t', '\r', Char.ofNat 8,
        Char.ofNat 12, Char.ofNat 1, Char.ofNat 31]),
      path := some "/odd", route := some "", component := "C:\\site\\Odd.vue",
      chunkName := some "odd", pageQuery := { query := some "" } },
    { name := some "404", path := some "/404", route := none, component := "/src/pages/404.vue",
      chunkName := none, pageQuery := { query := some "query { metaData }" } } ]

/-- Routes with a single `404` page, which has a data query. -/
def queryNotFoundRoutes : List Page :=
  [ { name := some "404", path := some "/404", route := none, component := "/src/pages/404.vue",
      chunkName := none, pageQuery := { query := some "query { metaData }" } } ]

/-- A recorded call of a collaborator: which method, with which arguments. -/
structure Call where
  callee : String
  args : List Val

/-- An `api` whose store methods return the record of the call made. -/
def recordingApi : Api Call where
  store :=
    { addMetaData := fun args => ⟨"store.addMetaData", args⟩
      addContentType := fun args => ⟨"store.addContentType", args⟩
      getContentType := fun args => ⟨"store.getContentType", args⟩
      slugify := fun args => ⟨"store.slugify", args⟩
      createReference := fun args => ⟨"store.createReference", args⟩
      createTypeName := fun args => ⟨"store.createTypeName", args⟩ }

/-- An `app` object with the given routes and schema, empty schema lists, and
methods that return the record of the call made. -/
def recordingApp (routes : List Page) (schema : Option GraphQLSchema) : App Call where
  routes := routes
  schema := schema
  _schemas := []
  _schemaTypes := []
  _schemaResolvers := []
  graphql := fun args => ⟨"app.graphql", args⟩
  resolve := fun args => ⟨"app.resolve", args⟩
  pages :=
    { createPage := fun args => ⟨"pages.createPage", args⟩
      updatePage := fun args => ⟨"pages.updatePage", args⟩
      removePage := fun args => ⟨"pages.removePage", args⟩
      removePageByPath := fun args => ⟨"pages.removePageByPath", args⟩
      removePagesByComponent := fun args => ⟨"pages.removePagesByComponent", args⟩
      findAndRemovePages := fun args => ⟨"pages.findAndRemovePages", args⟩
      findPage := fun args => ⟨"pages.findPage", args⟩
      findPages := fun args => ⟨"pages.findPages", args⟩ }

/-- Sample module exports: two of the picked `graphql` names and one that is
not picked. -/
def recordingModules : Modules Call where
  md5Hex := fun args => ⟨"crypto.md5Hex", args⟩
  graphql :=
    [ ("GraphQLString", Val.ext "GraphQLString"), ("GraphQLInt", Val.ext "GraphQLInt"),
      ("parse", Val.ext "parse") ]
  GraphQLJSON := Val.ext "GraphQLJSON"
  CreatedGraphQLType := ⟨Val.str "Object", Val.str "Union", Val.str "Interface",
    Val.str "InputObject"⟩

/-- An `app` object with a schema and one entry in each of the three schema
lists. -/
def stockedApp : App Call :=
  { recordingApp [] (some ⟨1⟩) with
    _schemas := [Val.ext "schema0"]
    _schemaTypes := [Val.str "type A"]
    _schemaResolvers := [Val.ext "resolvers0"] }

/-- An `app` object holding the given routes and nothing else. -/
def appWithRoutes (routes : List Page) : App Call :=
  recordingApp routes none

/-! ## Statements about façades -/

/-- Calling the action `name` of a façade: `none` when the façade has no
action of that name. -/
def callAction {ρ : Type} (facade : Facade ρ) (name : String) (args : List Val) (app : App ρ) :
    Option (Outcome ρ) :=
  match getProp facade name with
  | some (.action f) => some (f args app)
  | _ => none

/-- Calling `facade.object.name(...)` on a nested object of a façade. -/
def callMember {ρ : Type} (facade : Facade ρ) (object name : String) (args : List Val)
    (app : App ρ) : Option (Outcome ρ) :=
  match getProp facade object with
  | some (.object members) => (getProp members name).map (fun f => f args app)
  | _ => none

/-- The names of `large` strictly contain those of `small`: every property
name of `small` is one of `large`, every action of `small` is an action of
`large`, and `large` has an action under a name `small` does not have. -/
def StrictlyExtends {ρ : Type} (small large : Facade ρ) : Prop :=
  (∀ k ∈ names small, k ∈ names large) ∧
    (∀ k f, getProp small k = some (.action f) → ∃ g, getProp large k = some (.action g)) ∧
    ∃ k g, getProp large k = some (.action g) ∧ k ∉ names small

/-- The action named `k`, where both façades have one, does the same in
`large` as in `small` for every argument list and state of `app`. -/
def AgreeOn {ρ : Type} (small large : Facade ρ) (k : String) : Prop :=
  ∀ f g, getProp small k = some (.action f) → getProp large k = some (.action g) →
    ∀ args app, g args app = f args app

/-- No action of `small` is overridden in `large`. -/
def NeverOverrides {ρ : Type} (small large : Facade ρ) : Prop :=
  ∀ k, AgreeOn small large k

/-! ## Statements about the route manifest -/

/-- The manifest ends with a record whose path is `*` and no other record of
it has that path. -/
def EndsWithOnlyWildcard (records : List RouteRecord) : Prop :=
  (∃ r, records.getLast? = some r ∧ r.path = some "*") ∧
    records.countP (fun r => r.path == some "*") = 1

/-- The record path the specification describes: the route of the page when it
has a (non-empty) one, otherwise its path. -/
def PathOfPage (page : Page) (path : Option String) : Prop :=
  (∀ s, page.route = some s → s ≠ "" → path = some s) ∧
    (page.route = none ∨ page.route = some "" → path = page.path)

/-! ## Field names of content nodes

The schema builder (`graphql/createSchema` and the field-name helpers) is not
among the source files; only its test `createSchema.spec.js` is. What follows is
modelled from the specification. -/

/-- Modelled from the spec: a character of `[A-Za-z0-9_]` (the field-name
sanitization of the schema builder is missing from the sources). -/
def isIdentChar (c : Char) : Bool :=
  c.isAlphanum || c == '_'

/-- Modelled from the spec: the sanitization rule of section 6 on the
characters of a key (the schema builder's own function is missing): every
character outside `[A-Za-z0-9_]` becomes `_`, and a key that starts with a
digit is prefixed with `_`. -/
def sanitizeChars (key : List Char) : List Char :=
  let replaced := key.map (fun c => if isIdentChar c then c else '_')
  match key with
  | c :: _ => if c.isDigit then '_' :: replaced else replaced
  | [] => replaced

/-- Modelled from the spec: the sanitized field name of a raw key (the schema
builder's own function is missing from the sources). -/
def sanitizeFieldName (key : String) : String :=
  String.mk (sanitizeChars key.toList)

/-- Modelled from the spec: a valid GraphQL identifier, a letter or `_`
followed by letters, digits and `_` (the schema builder is missing from the
sources). -/
def isValidChars : List Char → Bool
  | [] => false
  | c :: rest => (c.isAlpha || c == '_') && rest.all isIdentChar

/-- Modelled from the spec: validity of a field name as a GraphQL identifier
(the schema builder is missing from the sources). -/
def isValidName (name : String) : Bool :=
  isValidChars name.toList

/-- Modelled from the spec: a content node, its raw keys and values as passed
to `addNode` (the content store is missing from the sources). -/
abbrev Node := List (String × Val)

/-- Modelled from the spec: a field resolver, a function of the node it is
resolved on (the schema builder is missing from the sources). -/
abbrev Resolver := Node → Val

/-- Modelled from the spec: a failure of schema building (the fatal collision
of section 6) or of a query (the schema builder is missing from the sources). -/
inductive SchemaError where
  | nameCollision
  | unknownField (name : String)

/-- Modelled from the spec: the distinct raw keys of the nodes of a content
type (the content store is missing from the sources). -/
def rawKeys (nodes : List Node) : List String :=
  (nodes.flatMap (fun node => names node)).dedup

/-- Modelled from the spec: whether two distinct raw keys of a type have the
same sanitized name, which section 6 makes a fatal error (the schema builder
is missing from the sources). -/
def hasCollision (keys : List String) : Bool :=
  keys.any (fun a => keys.any (fun b => a != b && sanitizeFieldName a == sanitizeFieldName b))

/-- Modelled from the spec: the fields inferred for a content type from its
nodes, each sanitized name with the raw key it stands for; a collision is
fatal (the schema builder is missing from the sources). -/
def inferFields (nodes : List Node) : Except SchemaError (List (String × String)) :=
  if hasCollision (rawKeys nodes) then .error .nameCollision
  else .ok ((rawKeys nodes).map (fun key => (sanitizeFieldName key, key)))

/-- Modelled from the spec: the value of the field `name` of `node` in a query
(the schema builder and executor are missing from the sources). `created`
holds the resolvers of the fields of a created object type and `resolverMap`
those added through the resolver map, which are applied over the former; a
resolver receives the node as stored; without a resolver the sanitized name is
translated back to the raw key and the value stored under it is returned. -/
def queryField (nodes : List Node) (created resolverMap : List (String × Resolver))
    (node : Node) (name : String) : Except SchemaError Val :=
  match inferFields nodes with
  | .error e => .error e
  | .ok fields =>
    match getProp resolverMap name with
    | some resolve => .ok (resolve node)
    | none =>
      match getProp created name with
      | some resolve => .ok (resolve node)
      | none =>
        match getProp fields name with
        | some key => .ok ((getProp node key).getD Val.null)
        | none => .error (.unknownField name)

/-- The node of the test `add custom resolver for invalid field names`. -/
def invalidNamesNode : Node :=
  [ ("id", Val.str "1"), ("123", Val.num 4), ("456-test", Val.num 4), ("789-test", Val.num 10) ]

/-- The resolver `obj => obj[key] + 6` of that test. -/
def plusSix (key : String) : Resolver := fun obj =>
  match getProp obj key with
  | some (Val.num n) => Val.num (n + 6)
  | _ => Val.undefined

/-- A node with two distinct raw keys of the same sanitized name. -/
def collidingNode : Node :=
  [ ("id", Val.str "1"), ("456-test", Val.num 4), ("456_test", Val.num 5) ]

/-! ## Properties of `genRoutes` -/

theorem pathOfPage_jsOr (page : Page) : PathOfPage page (jsOr page.route page.path) := by
  refine ⟨?_, ?_⟩
  · intro s hs hne
    simp [jsOr, hs, truthy, hne]
  · rintro (h | h) <;> simp [jsOr, h, truthy]

theorem findNotFound_of_mem {routes : List Page}
    (h : ∃ p ∈ routes, p.name = some "404") :
    ∃ notFound, findNotFound routes = some notFound := by
  obtain ⟨p, hp, hn⟩ := h
  have : (findNotFound routes).isSome := by
    simp only [findNotFound, List.find?_isSome]
    exact ⟨p, hp, by simp [hn]⟩
  exact Option.isSome_iff_exists.mp this

theorem findNotFound_first {routes : List Page} {notFound : Page}
    (h : findNotFound routes = some notFound) :
    notFound.name = some "404" ∧
      ∃ i : Nat, routes[i]? = some notFound ∧
        ∀ j : Nat, j < i → ∀ q : Page, routes[j]? = some q → q.name ≠ some "404" := by
  obtain ⟨hp, as, bs, hr, has⟩ := List.find?_eq_some.mp h
  refine ⟨by simpa using hp, as.length, ?_, ?_⟩
  · rw [hr, List.getElem?_append_right (Nat.le_refl _)]
    simp
  · intro j hj q hq
    have hq' : as[j]? = some q := by
      rw [hr, List.getElem?_append_left hj] at hq
      exact hq
    have hmem : q ∈ as := List.getElem?_mem hq'
    simpa using has q hmem

theorem findNotFound_mem {routes : List Page} {notFound : Page}
    (h : findNotFound routes = some notFound) : notFound ∈ routes := by
  obtain ⟨-, i, hi, -⟩ := findNotFound_first h
  exact List.getElem?_mem hi

theorem routeRecord_of_source (slugify : String → String) (page : Page) (source : String)
    (h : jsOr page.chunkName page.name = some source) :
    routeRecord slugify page = .ok (buildRecord slugify page source) := by
  simp [routeRecord, h]

theorem routeRecord_of_named (slugify : String → String) (page : Page)
    (h : jsOr page.chunkName page.name ≠ none) :
    routeRecord slugify page =
      .ok (buildRecord slugify page ((jsOr page.chunkName page.name).getD "")) := by
  cases hs : jsOr page.chunkName page.name with
  | none => exact absurd hs h
  | some source => simp [routeRecord, hs]

theorem routeRecord_fallback (slugify : String → String) (notFound : Page)
    (h : notFound.name = some "404") :
    routeRecord slugify (fallbackPage notFound) =
      .ok (buildRecord slugify (fallbackPage notFound) "404") := by
  apply routeRecord_of_source
  simp [fallbackPage, jsOr, truthy, h]

theorem mapRecords_of_named (slugify : String → String) (pages : List Page)
    (h : ∀ p ∈ pages, jsOr p.chunkName p.name ≠ none) :
    mapRecords slugify pages =
      .ok (pages.map
        (fun p => buildRecord slugify p ((jsOr p.chunkName p.name).getD ""))) := by
  induction pages with
  | nil => rfl
  | cons page rest ih =>
    have hpage := routeRecord_of_named slugify page (h page (List.mem_cons_self _ _))
    have hrest := ih (fun p hp => h p (List.mem_cons_of_mem _ hp))
    simp [mapRecords, hpage, hrest]

theorem mapRecords_of_unnamed (slugify : String → String) (pages : List Page)
    (h : ∃ p ∈ pages, jsOr p.chunkName p.name = none) :
    mapRecords slugify pages = .error (.typeError "Expected a string, got `undefined`") := by
  induction pages with
  | nil =>
    obtain ⟨p, hp, -⟩ := h
    cases hp
  | cons page rest ih =>
    cases hs : jsOr page.chunkName page.name with
    | none => simp [mapRecords, routeRecord, hs]
    | some source =>
      have hrest : ∃ p ∈ rest, jsOr p.chunkName p.name = none := by
        obtain ⟨p, hp, hnone⟩ := h
        rcases List.mem_cons.mp hp with rfl | hp'
        · rw [hs] at hnone
          cases hnone
        · exact ⟨p, hp', hnone⟩
      simp [mapRecords, routeRecord, hs, ih hrest]

/-- With a `404` page and a string `chunkName || name` on every page, the
records are those of the pages in order followed by the fallback record. -/
theorem genRouteRecords_of_found (slugify : String → String) {routes : List Page}
    {notFound : Page} (hnf : findNotFound routes = some notFound)
    (hnamed : ∀ p ∈ routes, jsOr p.chunkName p.name ≠ none) :
    genRouteRecords slugify routes =
      .ok (routes.map (fun p => buildRecord slugify p ((jsOr p.chunkName p.name).getD ""))
        ++ [buildRecord slugify (fallbackPage notFound) "404"]) := by
  have hname : notFound.name = some "404" := (findNotFound_first hnf).1
  have hfb : jsOr (fallbackPage notFound).chunkName (fallbackPage notFound).name
      = some "404" := by
    simp [fallbackPage, jsOr, truthy, hname]
  have hall : ∀ p ∈ routes ++ [fallbackPage notFound], jsOr p.chunkName p.name ≠ none := by
    intro p hp
    rcases List.mem_append.mp hp with hp | hp
    · exact hnamed p hp
    · rw [List.mem_singleton.mp hp, hfb]
      simp
  simp only [genRouteRecords, hnf]
  rw [mapRecords_of_named slugify _ hall, List.map_append]
  simp [hfb]

/-- The text `genRoutes` returns, written out from the records. -/
theorem genRoutes_of_records {ρ : Type} (slugify : String → String) (app : App ρ)
    {records : List RouteRecord} (h : genRouteRecords slugify app.routes = .ok records) :
    genRoutes slugify app =
      .ok ("export default [" ++ ",".intercalate (records.map renderRecord) ++ "\n]\n\n") := by
  simp [genRoutes, h, Except.map, renderManifest]

/-- The text of a record, written out from its fields. -/
theorem renderRecord_eq (r : RouteRecord) :
    renderRecord r =
      "\n  \x7b\n" ++
        ",\n".intercalate
          ((match r.name with
              | some n => ["    name: " ++ jsonStringify n]
              | none => []) ++
            [ "    path: " ++ jsonStringifyOpt r.path,
              "    component: () => import(/* webpackChunkName: " ++ jsonStringify r.chunkName
                ++ " */ " ++ jsonStringify r.component ++ ")" ] ++
            (if r.hasData then ["    meta: \x7b data: true \x7d"] else [])) ++
        "\n  \x7d" := by
  obtain ⟨name, path, component, chunkName, hasData⟩ := r
  cases name <;> cases hasData <;> simp [renderRecord, recordProps]

theorem buildRecord_fallback (slugify : String → String) (notFound : Page) :
    buildRecord slugify (fallbackPage notFound) "404" =
      ⟨some "*", some "*", notFound.component, "component--" ++ slugify "404",
        truthy notFound.pageQuery.query⟩ := by
  simp [buildRecord, fallbackPage, jsOr, truthy]

theorem countP_wildcard_eq_zero (slugify : String → String) (routes : List Page) :
    List.countP (fun r => r.path == some "*")
        (routes.map (fun p => buildRecord slugify p ((jsOr p.chunkName p.name).getD ""))) = 0 ↔
      ∀ p ∈ routes, jsOr p.route p.path ≠ some "*" := by
  rw [List.countP_eq_zero]
  constructor
  · intro hzero p hp hstar
    exact hzero _ (List.mem_map_of_mem _ hp) (by simp [buildRecord, hstar])
  · intro hall r hr
    obtain ⟨p, hp, rfl⟩ := List.mem_map.mp hr
    simpa [buildRecord] using hall p hp

/-- C1 (amended): for every app whose routes contain at least one page named
`404`, however many, and whose pages all have a string `chunkName || name`,
`genRoutes` returns a manifest whose records are those of the pages followed
by exactly one fallback record, of name and path `*`; that last record is the
only one of path `*` exactly when no page of `app.routes` has `*` as its own
`route || path`. -/
theorem genRoutes_wildcard_last {ρ : Type} (slugify : String → String) (app : App ρ)
    (h : ∃ p ∈ app.routes, p.name = some "404")
    (hnamed : ∀ p ∈ app.routes, jsOr p.chunkName p.name ≠ none) :
    ∃ (notFound : Page) (records : List RouteRecord) (fallback : RouteRecord),
      findNotFound app.routes = some notFound ∧
      genRouteRecords slugify app.routes = .ok (records ++ [fallback]) ∧
      genRoutes slugify app =
        .ok ("export default [" ++
          ",".intercalate ((records ++ [fallback]).map renderRecord) ++ "\n]\n\n") ∧
      (∀ r : RouteRecord,
        renderRecord r =
          "\n  \x7b\n" ++
            ",\n".intercalate
              ((match r.name with
                  | some n => ["    name: " ++ jsonStringify n]
                  | none => []) ++
                [ "    path: " ++ jsonStringifyOpt r.path,
                  "    component: () => import(/* webpackChunkName: " ++
                    jsonStringify r.chunkName ++ " */ " ++ jsonStringify r.component ++ ")" ] ++
                (if r.hasData then ["    meta: \x7b data: true \x7d"] else [])) ++
            "\n  \x7d") ∧
      records.length = app.routes.length ∧
      (records ++ [fallback]).getLast? = some fallback ∧
      fallback =
        ⟨some "*", some "*", notFound.component, "component--" ++ slugify "404",
          truthy notFound.pageQuery.query⟩ ∧
      (EndsWithOnlyWildcard (records ++ [fallback]) ↔
        ∀ p ∈ app.routes, jsOr p.route p.path ≠ some "*") := by
  obtain ⟨notFound, hnf⟩ := findNotFound_of_mem h
  have hrec := genRouteRecords_of_found slugify hnf hnamed
  rw [buildRecord_fallback] at hrec
  refine ⟨notFound, _, _, hnf, hrec, genRoutes_of_records slugify app hrec, renderRecord_eq,
    by simp, List.getLast?_concat _, rfl, ?_⟩
  have hone : List.countP (fun r : RouteRecord => r.path == some "*")
      [⟨some "*", some "*", notFound.component, "component--" ++ slugify "404",
        truthy notFound.pageQuery.query⟩] = 1 := by
    simp [List.countP_cons]
  have hzero := countP_wildcard_eq_zero slugify app.routes
  constructor
  · rintro ⟨-, hcount⟩
    rw [List.countP_append, hone] at hcount
    exact hzero.mp (by omega)
  · intro hall
    refine ⟨⟨_, List.getLast?_concat _, rfl⟩, ?_⟩
    rw [List.countP_append, hone, hzero.mpr hall]

/-- C1 (witness): on routes with two pages named `404` and none of path `*`, with the text returned. -/
theorem genRoutes_wildcard_last_witness :
    (∃ p ∈ (appWithRoutes twoNotFoundRoutes).routes, p.name = some "404") ∧
    (∀ p ∈ (appWithRoutes twoNotFoundRoutes).routes, jsOr p.chunkName p.name ≠ none) ∧
    (∃ (notFound : Page) (records : List RouteRecord) (fallback : RouteRecord),
      findNotFound (appWithRoutes twoNotFoundRoutes).routes = some notFound ∧
      genRouteRecords sampleSlugify (appWithRoutes twoNotFoundRoutes).routes = .ok (records ++ [fallback]) ∧
      genRoutes sampleSlugify (appWithRoutes twoNotFoundRoutes) =
        .ok ("export default [" ++
          ",".intercalate ((records ++ [fallback]).map renderRecord) ++ "\n]\n\n") ∧
      (∀ r : RouteRecord,
        renderRecord r =
          "\n  \x7b\n" ++
            ",\n".intercalate
              ((match r.name with
                  | some n => ["    name: " ++ jsonStringify n]
                  | none => []) ++
                [ "    path: " ++ jsonStringifyOpt r.path,
                  "    component: () => import(/* webpackChunkName: " ++
                    jsonStringify r.chunkName ++ " */ " ++ jsonStringify r.component ++ ")" ] ++
                (if r.hasData then ["    meta: \x7b data: true \x7d"] else [])) ++
            "\n  \x7d") ∧
      records.length = (appWithRoutes twoNotFoundRoutes).routes.length ∧
      (records ++ [fallback]).getLast? = some fallback ∧
      fallback =
        ⟨some "*", some "*", notFound.component, "component--" ++ sampleSlugify "404",
          truthy notFound.pageQuery.query⟩ ∧
      (EndsWithOnlyWildcard (records ++ [fallback]) ↔
        ∀ p ∈ (appWithRoutes twoNotFoundRoutes).routes, jsOr p.route p.path ≠ some "*")) ∧
    genRoutes sampleSlugify (appWithRoutes twoNotFoundRoutes) = .ok
      ("export default [\n" ++
      "  \x7b\n" ++
      "    name: \"home\",\n" ++
      "    path: \"/\",\n" ++
      "    component: () => import(/* webpackChunkName: \"component--home\" */ \"Index.vue\")\n" ++
      "  \x7d,\n" ++
      "  \x7b\n" ++
      "    name: \"404\",\n" ++
      "    path: \"/404\",\n" ++
      "    component: () => import(/* webpackChunkName: \"component--404\" */ \"NotFound.vue\")\n" ++
      "  \x7d,\n" ++
      "  \x7b\n" ++
      "    name: \"404\",\n" ++
      "    path: \"/missing\",\n" ++
      "    component: () => import(/* webpackChunkName: \"component--404\" */ \"Missing.vue\")\n" ++
      "  \x7d,\n" ++
      "  \x7b\n" ++
      "    name: \"*\",\n" ++
      "    path: \"*\",\n" ++
      "    component: () => import(/* webpackChunkName: \"component--404\" */ \"NotFound.vue\")\n" ++
      "  \x7d\n" ++
      "]\n" ++
      "\n") :=
  ⟨by decide, by decide,
    genRoutes_wildcard_last sampleSlugify (appWithRoutes twoNotFoundRoutes) (by decide) (by decide),
    by rfl⟩

/-- C1 (counterexample): with a `404` page and a page whose own path is `*`,
the manifest has two records of path `*`, so the last one is not the only one. -/
theorem genRoutes_two_wildcards :
    (∃ p ∈ wildcardRoutes, p.name = some "404") ∧
    ∃ records : List RouteRecord,
      genRouteRecords sampleSlugify wildcardRoutes = .ok records ∧
      records.countP (fun r => r.path == some "*") = 2 ∧
      ¬ EndsWithOnlyWildcard records := by
  refine ⟨by decide, _, rfl, by decide, ?_⟩
  rintro ⟨-, hcount⟩
  revert hcount
  decide

/-- C2: for every app whose routes contain no page named `404`, `genRoutes`
fails with an error (the `TypeError` of reading `notFound.pageQuery`) and
returns no manifest. -/
theorem genRoutes_without_notFound {ρ : Type} (slugify : String → String) (app : App ρ)
    (h : ∀ p ∈ app.routes, p.name ≠ some "404") :
    genRoutes slugify app =
        .error (.typeError "Cannot read property 'pageQuery' of undefined") ∧
      ∀ text, genRoutes slugify app ≠ .ok text := by
  have hnone : findNotFound app.routes = none := by
    simp only [findNotFound, List.find?_eq_none]
    intro p hp
    simpa using h p hp
  have herr : genRoutes slugify app =
      .error (.typeError "Cannot read property 'pageQuery' of undefined") := by
    simp [genRoutes, genRouteRecords, hnone, Except.map]
  exact ⟨herr, fun text htext => by rw [herr] at htext; cases htext⟩

/-- C2 (witness): on routes with a home and an about page only. -/
theorem genRoutes_without_notFound_witness :
    (∀ p ∈ (appWithRoutes noNotFoundRoutes).routes, p.name ≠ some "404") ∧
    genRoutes sampleSlugify (appWithRoutes noNotFoundRoutes) =
        .error (.typeError "Cannot read property 'pageQuery' of undefined") ∧
      ∀ text, genRoutes sampleSlugify (appWithRoutes noNotFoundRoutes) ≠ .ok text :=
  ⟨by simp [appWithRoutes, recordingApp, noNotFoundRoutes, plainPage],
    genRoutes_without_notFound sampleSlugify (appWithRoutes noNotFoundRoutes)
      (by simp [appWithRoutes, recordingApp, noNotFoundRoutes, plainPage])⟩

/-- C3 (amended): for every app with `n` pages in `app.routes`, one of them
named `404` and each with a string `chunkName || name`, `genRoutes` emits
exactly `n + 1` route records; for each `i < n` the `i`-th record is the one
computed for the `i`-th page (its path is the page's route when it has one and
otherwise the page's path, its component is the page's component), and the
record at position `n`, after all of them, is the one computed for the
synthesized fallback page. -/
theorem genRoutes_records_in_order {ρ : Type} (slugify : String → String) (app : App ρ)
    (h : ∃ p ∈ app.routes, p.name = some "404")
    (hnamed : ∀ p ∈ app.routes, jsOr p.chunkName p.name ≠ none) :
    ∃ records : List RouteRecord,
      genRouteRecords slugify app.routes = .ok records ∧
      genRoutes slugify app =
        .ok ("export default [" ++ ",".intercalate (records.map renderRecord) ++ "\n]\n\n") ∧
      (∀ r : RouteRecord,
        renderRecord r =
          "\n  \x7b\n" ++
            ",\n".intercalate
              ((match r.name with
                  | some n => ["    name: " ++ jsonStringify n]
                  | none => []) ++
                [ "    path: " ++ jsonStringifyOpt r.path,
                  "    component: () => import(/* webpackChunkName: " ++
                    jsonStringify r.chunkName ++ " */ " ++ jsonStringify r.component ++ ")" ] ++
                (if r.hasData then ["    meta: \x7b data: true \x7d"] else [])) ++
            "\n  \x7d") ∧
      records.length = app.routes.length + 1 ∧
      (∀ (i : Nat) (page : Page), app.routes[i]? = some page →
        ∃ r, records[i]? = some r ∧ routeRecord slugify page = .ok r ∧
          PathOfPage page r.path ∧ r.component = page.component) ∧
      ∃ (notFound : Page) (fallback : RouteRecord),
        findNotFound app.routes = some notFound ∧
        records[app.routes.length]? = some fallback ∧
        routeRecord slugify (fallbackPage notFound) = .ok fallback ∧
        fallback.name = some "*" ∧ fallback.path = some "*" := by
  obtain ⟨notFound, hnf⟩ := findNotFound_of_mem h
  have hrec := genRouteRecords_of_found slugify hnf hnamed
  have hname : notFound.name = some "404" := (findNotFound_first hnf).1
  refine ⟨_, hrec, genRoutes_of_records slugify app hrec, renderRecord_eq, by simp, ?_,
    notFound, _, hnf, ?_, routeRecord_fallback slugify notFound hname, ?_, ?_⟩
  · intro i page hi
    have hmem : page ∈ app.routes := List.getElem?_mem hi
    have hlt : i < (app.routes.map
        (fun p => buildRecord slugify p ((jsOr p.chunkName p.name).getD ""))).length := by
      obtain ⟨hlt, -⟩ := List.getElem?_eq_some_iff.mp hi
      simpa using hlt
    refine ⟨buildRecord slugify page ((jsOr page.chunkName page.name).getD ""), ?_,
      routeRecord_of_named slugify page (hnamed page hmem), pathOfPage_jsOr page, rfl⟩
    rw [List.getElem?_append_left hlt]
    simp [hi]
  · have hlen : (app.routes.map
        (fun p => buildRecord slugify p ((jsOr p.chunkName p.name).getD ""))).length
        = app.routes.length := by simp
    rw [← hlen]
    exact List.getElem?_concat_length _ _
  · simp [buildRecord_fallback]
  · simp [buildRecord_fallback]

/-- C3 (witness): on routes that exercise every branch of the record callback, with the text returned. -/
theorem genRoutes_records_in_order_witness :
    (∃ p ∈ (appWithRoutes sampleRoutes).routes, p.name = some "404") ∧
    (∀ p ∈ (appWithRoutes sampleRoutes).routes, jsOr p.chunkName p.name ≠ none) ∧
    (∃ records : List RouteRecord,
      genRouteRecords sampleSlugify (appWithRoutes sampleRoutes).routes = .ok records ∧
      genRoutes sampleSlugify (appWithRoutes sampleRoutes) =
        .ok ("export default [" ++ ",".intercalate (records.map renderRecord) ++ "\n]\n\n") ∧
      (∀ r : RouteRecord,
        renderRecord r =
          "\n  \x7b\n" ++
            ",\n".intercalate
              ((match r.name with
                  | some n => ["    name: " ++ jsonStringify n]
                  | none => []) ++
                [ "    path: " ++ jsonStringifyOpt r.path,
                  "    component: () => import(/* webpackChunkName: " ++
                    jsonStringify r.chunkName ++ " */ " ++ jsonStringify r.component ++ ")" ] ++
                (if r.hasData then ["    meta: \x7b data: true \x7d"] else [])) ++
            "\n  \x7d") ∧
      records.length = (appWithRoutes sampleRoutes).routes.length + 1 ∧
      (∀ (i : Nat) (page : Page), (appWithRoutes sampleRoutes).routes[i]? = some page →
        ∃ r, records[i]? = some r ∧ routeRecord sampleSlugify page = .ok r ∧
          PathOfPage page r.path ∧ r.component = page.component) ∧
      ∃ (notFound : Page) (fallback : RouteRecord),
        findNotFound (appWithRoutes sampleRoutes).routes = some notFound ∧
        records[(appWithRoutes sampleRoutes).routes.length]? = some fallback ∧
        routeRecord sampleSlugify (fallbackPage notFound) = .ok fallback ∧
        fallback.name = some "*" ∧ fallback.path = some "*") ∧
    genRoutes sampleSlugify (appWithRoutes sampleRoutes) = .ok
      ("export default [\n" ++
      "  \x7b\n" ++
      "    name: \"home\",\n" ++
      "    path: \"/\",\n" ++
      "    component: () => import(/* webpackChunkName: \"component--home\" */ \"/src/pages/Index.vue\"),\n" ++
      "    meta: \x7b data: true \x7d\n" ++
      "  \x7d,\n" ++
      "  \x7b\n" ++
      "    path: \"/blog/:slug\",\n" ++
      "    component: () => import(/* webpackChunkName: \"component--post\" */ \"/src/templates/Post.vue\")\n" ++
      "  \x7d,\n" ++
      "  \x7b\n" ++
      "    name: \"a\\\"b\\\\c\\n\\t\\r\\b\\f\\u0001\\u001f\",\n" ++
      "    path: \"/odd\",\n" ++
      "    component: () => import(/* webpackChunkName: \"component--odd\" */ \"C:\\\\site\\\\Odd.vue\")\n" ++
      "  \x7d,\n" ++
      "  \x7b\n" ++
      "    name: \"404\",\n" ++
      "    path: \"/404\",\n" ++
      "    component: () => import(/* webpackChunkName: \"component--404\" */ \"/src/pages/404.vue\"),\n" ++
      "    meta: \x7b data: true \x7d\n" ++
      "  \x7d,\n" ++
      "  \x7b\n" ++
      "    name: \"*\",\n" ++
      "    path: \"*\",\n" ++
      "    component: () => import(/* webpackChunkName: \"component--404\" */ \"/src/pages/404.vue\"),\n" ++
      "    meta: \x7b data: true \x7d\n" ++
      "  \x7d\n" ++
      "]\n" ++
      "\n") :=
  ⟨by decide, by decide,
    genRoutes_records_in_order sampleSlugify (appWithRoutes sampleRoutes) (by decide) (by decide),
    by rfl⟩

/-- C3 (counterexample): with a `404` page and a page that has neither `name`
nor `chunkName`, `slugify(undefined)` throws and `genRoutes` emits no record. -/
theorem genRoutes_throws_on_unnamed_page :
    (∃ p ∈ (appWithRoutes unnamedRoutes).routes, p.name = some "404") ∧
      genRoutes sampleSlugify (appWithRoutes unnamedRoutes) =
        .error (.typeError "Expected a string, got \x60undefined\x60") ∧
      ∀ records, genRouteRecords sampleSlugify unnamedRoutes ≠ .ok records := by
  refine ⟨by decide, rfl, ?_⟩
  intro records hrecords
  have herr : genRouteRecords sampleSlugify unnamedRoutes =
      .error (.typeError "Expected a string, got \x60undefined\x60") := rfl
  rw [herr] at hrecords
  cases hrecords

/-- C4 (amended): for every app with a page named `404` and a string
`chunkName || name` on every page, the fallback record is built from the first
page named `404`: it has the component and the data-query flag of the record
emitted for that page, its name and path are both `*`, and its chunk name is
the sanitized name `404` of the page; that is the chunk name of the page's own
record whenever the page has no (non-empty) `chunkName`. -/
theorem genRoutes_fallback_clone {ρ : Type} (slugify : String → String) (app : App ρ)
    (h : ∃ p ∈ app.routes, p.name = some "404")
    (hnamed : ∀ p ∈ app.routes, jsOr p.chunkName p.name ≠ none) :
    ∃ (notFound : Page) (own fallback : RouteRecord) (records : List RouteRecord),
      (notFound.name = some "404" ∧
        ∃ i : Nat, app.routes[i]? = some notFound ∧
          ∀ j : Nat, j < i → ∀ q : Page, app.routes[j]? = some q → q.name ≠ some "404") ∧
      routeRecord slugify notFound = .ok own ∧
      genRouteRecords slugify app.routes = .ok (records ++ [fallback]) ∧
      genRoutes slugify app =
        .ok ("export default [" ++
          ",".intercalate ((records ++ [fallback]).map renderRecord) ++ "\n]\n\n") ∧
      (∀ r : RouteRecord,
        renderRecord r =
          "\n  \x7b\n" ++
            ",\n".intercalate
              ((match r.name with
                  | some n => ["    name: " ++ jsonStringify n]
                  | none => []) ++
                [ "    path: " ++ jsonStringifyOpt r.path,
                  "    component: () => import(/* webpackChunkName: " ++
                    jsonStringify r.chunkName ++ " */ " ++ jsonStringify r.component ++ ")" ] ++
                (if r.hasData then ["    meta: \x7b data: true \x7d"] else [])) ++
            "\n  \x7d") ∧
      fallback.component = own.component ∧
      fallback.hasData = own.hasData ∧
      fallback.name = some "*" ∧
      fallback.path = some "*" ∧
      fallback.chunkName = "component--" ++ slugify "404" ∧
      (truthy notFound.chunkName = false → fallback.chunkName = own.chunkName) := by
  obtain ⟨notFound, hnf⟩ := findNotFound_of_mem h
  have hfirst := findNotFound_first hnf
  have hname : notFound.name = some "404" := hfirst.1
  have hrec := genRouteRecords_of_found slugify hnf hnamed
  have hown := routeRecord_of_named slugify notFound (hnamed notFound (findNotFound_mem hnf))
  refine ⟨notFound, _, _, _, hfirst, hown, hrec, genRoutes_of_records slugify app hrec,
    renderRecord_eq, rfl, rfl, ?_, ?_, rfl, ?_⟩
  · simp [buildRecord_fallback]
  · simp [buildRecord_fallback]
  · intro hchunk
    have hsource : jsOr notFound.chunkName notFound.name = some "404" := by
      simp [jsOr, hchunk, hname]
    simp [buildRecord, hsource]

/-- C4 (witness): on a single `404` page with a data query, with the text returned. -/
theorem genRoutes_fallback_clone_witness :
    (∃ p ∈ (appWithRoutes queryNotFoundRoutes).routes, p.name = some "404") ∧
    (∀ p ∈ (appWithRoutes queryNotFoundRoutes).routes, jsOr p.chunkName p.name ≠ none) ∧
    (∃ (notFound : Page) (own fallback : RouteRecord) (records : List RouteRecord),
      (notFound.name = some "404" ∧
        ∃ i : Nat, (appWithRoutes queryNotFoundRoutes).routes[i]? = some notFound ∧
          ∀ j : Nat, j < i → ∀ q : Page, (appWithRoutes queryNotFoundRoutes).routes[j]? = some q → q.name ≠ some "404") ∧
      routeRecord sampleSlugify notFound = .ok own ∧
      genRouteRecords sampleSlugify (appWithRoutes queryNotFoundRoutes).routes = .ok (records ++ [fallback]) ∧
      genRoutes sampleSlugify (appWithRoutes queryNotFoundRoutes) =
        .ok ("export default [" ++
          ",".intercalate ((records ++ [fallback]).map renderRecord) ++ "\n]\n\n") ∧
      (∀ r : RouteRecord,
        renderRecord r =
          "\n  \x7b\n" ++
            ",\n".intercalate
              ((match r.name with
                  | some n => ["    name: " ++ jsonStringify n]
                  | none => []) ++
                [ "    path: " ++ jsonStringifyOpt r.path,
                  "    component: () => import(/* webpackChunkName: " ++
                    jsonStringify r.chunkName ++ " */ " ++ jsonStringify r.component ++ ")" ] ++
                (if r.hasData then ["    meta: \x7b data: true \x7d"] else [])) ++
            "\n  \x7d") ∧
      fallback.component = own.component ∧
      fallback.hasData = own.hasData ∧
      fallback.name = some "*" ∧
      fallback.path = some "*" ∧
      fallback.chunkName = "component--" ++ sampleSlugify "404" ∧
      (truthy notFound.chunkName = false → fallback.chunkName = own.chunkName)) ∧
    genRoutes sampleSlugify (appWithRoutes queryNotFoundRoutes) = .ok
      ("export default [\n" ++
      "  \x7b\n" ++
      "    name: \"404\",\n" ++
      "    path: \"/404\",\n" ++
      "    component: () => import(/* webpackChunkName: \"component--404\" */ \"/src/pages/404.vue\"),\n" ++
      "    meta: \x7b data: true \x7d\n" ++
      "  \x7d,\n" ++
      "  \x7b\n" ++
      "    name: \"*\",\n" ++
      "    path: \"*\",\n" ++
      "    component: () => import(/* webpackChunkName: \"component--404\" */ \"/src/pages/404.vue\"),\n" ++
      "    meta: \x7b data: true \x7d\n" ++
      "  \x7d\n" ++
      "]\n" ++
      "\n") :=
  ⟨by decide, by decide,
    genRoutes_fallback_clone sampleSlugify (appWithRoutes queryNotFoundRoutes) (by decide) (by decide),
    by rfl⟩

/-- C4 (counterexample): for a `404` page with `chunkName: 'not-found'` the
record of the page has chunk name `component--not-found` and the fallback
record `component--404`. -/
theorem genRoutes_fallback_chunk_differs :
    genRouteRecords sampleSlugify [customChunkNotFound] =
        .ok [ ⟨some "404", some "/404", "NotFound.vue", "component--not-found", false⟩,
              ⟨some "*", some "*", "NotFound.vue", "component--404", false⟩ ] ∧
      routeRecord sampleSlugify customChunkNotFound =
        .ok ⟨some "404", some "/404", "NotFound.vue", "component--not-found", false⟩ ∧
      routeRecord sampleSlugify (fallbackPage customChunkNotFound) =
        .ok ⟨some "*", some "*", "NotFound.vue", "component--404", false⟩ ∧
      "component--404" ≠ "component--not-found" ∧
      genRoutes sampleSlugify (appWithRoutes [customChunkNotFound]) = .ok
        ("export default [\n" ++
        "  \x7b\n" ++
        "    name: \"404\",\n" ++
        "    path: \"/404\",\n" ++
        "    component: () => import(/* webpackChunkName: \"component--not-found\" */ \"NotFound.vue\")\n" ++
        "  \x7d,\n" ++
        "  \x7b\n" ++
        "    name: \"*\",\n" ++
        "    path: \"*\",\n" ++
        "    component: () => import(/* webpackChunkName: \"component--404\" */ \"NotFound.vue\")\n" ++
        "  \x7d\n" ++
        "]\n" ++
        "\n") := by
  refine ⟨rfl, rfl, rfl, by decide, rfl⟩

/-! ## Objects: lookup after assignment and spread -/

theorem getProp_setProp {α : Type} (o : List (String × α)) (k k' : String) (v : α) :
    getProp (setProp o k v) k' = if k = k' then some v else getProp o k' := by
  induction o with
  | nil => simp [setProp, getProp]
  | cons kv rest ih =>
    obtain ⟨k₀, v₀⟩ := kv
    by_cases h : k₀ = k
    · subst h
      by_cases h' : k₀ = k' <;> simp [setProp, getProp, h']
    · by_cases h' : k₀ = k'
      · subst h'
        have hne : ¬ k = k₀ := fun e => h e.symm
        simp [setProp, getProp, h, hne]
      · simp [setProp, getProp, h, h', ih]

theorem mem_names_setProp {α : Type} (o : List (String × α)) (k k' : String) (v : α) :
    k' ∈ names (setProp o k v) ↔ k' = k ∨ k' ∈ names o := by
  induction o with
  | nil => simp [setProp, names]
  | cons kv rest ih =>
    obtain ⟨k₀, v₀⟩ := kv
    by_cases h : k₀ = k
    · subst h
      simp [setProp, names]
    · have ih' : k' ∈ List.map Prod.fst (setProp rest k v) ↔
          k' = k ∨ k' ∈ List.map Prod.fst rest := ih
      simp only [setProp, h, if_false, names, List.map_cons, List.mem_cons, ih']
      tauto

theorem extend_append {α : Type} (base p q : List (String × α)) :
    extend base (p ++ q) = extend (extend base p) q := by
  simp [extend, List.foldl_append]

theorem extend_cons {α : Type} (base : List (String × α)) (kv : String × α)
    (props : List (String × α)) :
    extend base (kv :: props) = extend (setProp base kv.1 kv.2) props := rfl

theorem extend_nil {α : Type} (base : List (String × α)) : extend base [] = base := rfl

theorem mem_names_extend {α : Type} (props base : List (String × α)) (k : String) :
    k ∈ names (extend base props) ↔ k ∈ names base ∨ k ∈ names props := by
  induction props generalizing base with
  | nil => simp [extend_nil, names]
  | cons kv rest ih =>
    rw [extend_cons, ih, mem_names_setProp]
    simp only [names, List.map_cons, List.mem_cons]
    tauto

theorem getProp_extend_of_not_mem {α : Type} (props base : List (String × α)) (k : String)
    (h : k ∉ names props) : getProp (extend base props) k = getProp base k := by
  induction props generalizing base with
  | nil => rfl
  | cons kv rest ih =>
    simp only [names, List.map_cons, List.mem_cons, not_or] at h
    rw [extend_cons, ih _ h.2, getProp_setProp]
    have hne : ¬ kv.1 = k := fun e => h.1 e.symm
    simp [hne]

theorem mem_names_pick {α : Type} (object : List (String × α)) (paths : List String)
    (k : String) (h : k ∈ names (pick object paths)) : k ∈ paths := by
  rw [pick, mem_names_extend] at h
  rcases h with h | h
  · simp [names] at h
  · simp only [names, List.mem_map, List.mem_filterMap] at h
    obtain ⟨kv, ⟨p, hp, hkv⟩, rfl⟩ := h
    cases hget : getProp object p with
    | none => simp [hget] at hkv
    | some v =>
      simp only [hget, Option.map_some', Option.some.injEq] at hkv
      subst hkv
      exact hp

theorem getProp_eq_none_of_not_mem {α : Type} (o : List (String × α)) (k : String)
    (h : k ∉ names o) : getProp o k = none := by
  induction o with
  | nil => rfl
  | cons kv rest ih =>
    obtain ⟨k₀, v₀⟩ := kv
    simp only [names, List.map_cons, List.mem_cons, not_or] at h
    have hne : ¬ k₀ = k := fun e => h.1 e.symm
    simp only [getProp, hne, if_false]
    exact ih h.2

theorem mem_names_of_getProp {α : Type} (o : List (String × α)) (k : String) (v : α)
    (h : getProp o k = some v) : k ∈ names o := by
  by_contra hk
  rw [getProp_eq_none_of_not_mem o k hk] at h
  cases h

theorem neverOverrides_of_getProp_eq {ρ : Type} (small large : Facade ρ)
    (h : ∀ k ∈ names small, getProp large k = getProp small k) : NeverOverrides small large := by
  intro k f g hf hg args app
  by_cases hk : k ∈ names small
  · rw [h k hk, hf] at hg
    cases hg
    rfl
  · rw [getProp_eq_none_of_not_mem small k hk] at hf
    cases hf

theorem withDefault_of_ne (v d : Val) (h : v ≠ Val.undefined) : withDefault v d = v := by
  cases v <;> simp [withDefault] at h ⊢

/-! ## The names of the façades -/

theorem names_createBaseActions {ρ : Type} (api : Api ρ) :
    names (createBaseActions api) = ["graphql", "resolve"] := by
  simp [names, createBaseActions, extend, setProp]

theorem names_createStoreActions {ρ : Type} (env : Modules ρ) (api : Api ρ) :
    names (createStoreActions env api) =
      [ "graphql", "resolve", "addMetaData", "addContentType", "getContentType", "slugify",
        "store", "createTypeName", "createReference", "makeUid", "makeTypeName" ] := by
  simp [names, createStoreActions, createBaseActions, extend, setProp]

theorem names_createPagesActions {ρ : Type} (api : Api ρ) (digest : Val) :
    names (createPagesActions api digest) =
      ["graphql", "resolve", "getContentType", "createPage"] := by
  simp [names, createPagesActions, createBaseActions, extend, setProp]

theorem names_createManagedPagesActions {ρ : Type} (api : Api ρ) (digest : Val) :
    names (createManagedPagesActions api digest) =
      [ "graphql", "resolve", "getContentType", "createPage", "updatePage", "removePage",
        "removePageByPath", "removePagesByComponent", "findAndRemovePages", "findPage",
        "findPages" ] := by
  simp [names, createManagedPagesActions, createPagesActions, createBaseActions, extend, setProp]

/-- What `createSchemaActions` adds to the store façade never has one of the
store façade's names. -/
theorem schema_additions_fresh {ρ : Type} (env : Modules ρ) (api : Api ρ) (k : String)
    (hk : k ∈ names (createStoreActions env api)) :
    getProp (createSchemaActions env api) k = getProp (createStoreActions env api) k := by
  unfold createSchemaActions
  apply getProp_extend_of_not_mem
  intro hmem
  simp only [names, List.map_append, List.mem_append, List.map_map] at hmem
  rw [names_createStoreActions] at hk
  rcases hmem with hmem | hmem
  · have hpick : k ∈ graphqlTypeNames := by
      apply mem_names_pick env.graphql graphqlTypeNames k
      simpa [names, List.mem_map] using hmem
    simp only [List.mem_cons, List.mem_singleton, List.not_mem_nil, or_false] at hk
    rcases hk with rfl | rfl | rfl | rfl | rfl | rfl | rfl | rfl | rfl | rfl | rfl <;>
      simp [graphqlTypeNames] at hpick
  · simp only [List.mem_cons, List.mem_singleton, List.not_mem_nil, or_false] at hk
    rcases hk with rfl | rfl | rfl | rfl | rfl | rfl | rfl | rfl | rfl | rfl | rfl <;>
      simp at hmem

/-- What `createStoreActions` adds to the base façade never has one of the
base façade's names. -/
theorem store_additions_fresh {ρ : Type} (env : Modules ρ) (api : Api ρ) (k : String)
    (hk : k ∈ names (createBaseActions api)) :
    getProp (createStoreActions env api) k = getProp (createBaseActions api) k := by
  rw [names_createBaseActions] at hk
  unfold createStoreActions
  apply getProp_extend_of_not_mem
  simp only [List.mem_cons, List.mem_singleton, List.not_mem_nil, or_false] at hk
  rcases hk with rfl | rfl <;> simp [names]

/-- What `createPagesActions` adds to the base façade never has one of the
base façade's names. -/
theorem pages_additions_fresh {ρ : Type} (api : Api ρ) (digest : Val) (k : String)
    (hk : k ∈ names (createBaseActions api)) :
    getProp (createPagesActions api digest) k = getProp (createBaseActions api) k := by
  rw [names_createBaseActions] at hk
  unfold createPagesActions
  apply getProp_extend_of_not_mem
  simp only [List.mem_cons, List.mem_singleton, List.not_mem_nil, or_false] at hk
  rcases hk with rfl | rfl <;> simp [names]

/-- Of the names of the pages façade, `createManagedPagesActions` assigns
`createPage` only. -/
theorem managed_additions_fresh {ρ : Type} (api : Api ρ) (digest : Val) (k : String)
    (hk : k ∈ names (createPagesActions api digest)) (hne : k ≠ "createPage") :
    getProp (createManagedPagesActions api digest) k =
      getProp (createPagesActions api digest) k := by
  rw [names_createPagesActions] at hk
  unfold createManagedPagesActions
  apply getProp_extend_of_not_mem
  simp only [List.mem_cons, List.mem_singleton, List.not_mem_nil, or_false] at hk
  rcases hk with rfl | rfl | rfl | rfl
  · simp [names]
  · simp [names]
  · simp [names]
  · exact absurd rfl hne

theorem getProp_managed_createPage {ρ : Type} (api : Api ρ) (digest : Val) :
    getProp (createManagedPagesActions api digest) "createPage" =
      some (.action (fun args app =>
        .tail (app.pages.createPage [arg args 0, pageInternals digest true]))) := by
  simp [createManagedPagesActions, createPagesActions, createBaseActions, extend, setProp,
    getProp]

theorem getProp_schema_addSchema {ρ : Type} (env : Modules ρ) (api : Api ρ) :
    getProp (createSchemaActions env api) "addSchema" =
      some (.action (fun args app =>
        .ret Val.undefined { app with _schemas := app._schemas ++ [arg args 0] })) := by
  simp only [createSchemaActions, extend_append]
  simp [extend_cons, extend_nil, getProp_setProp]

theorem getProp_store_addMetaData {ρ : Type} (env : Modules ρ) (api : Api ρ) :
    getProp (createStoreActions env api) "addMetaData" =
      some (.action (fun args _ => .tail (api.store.addMetaData [arg args 0, arg args 1]))) := by
  simp [createStoreActions, createBaseActions, extend, setProp, getProp]

theorem getProp_pages_createPage {ρ : Type} (api : Api ρ) (digest : Val) :
    getProp (createPagesActions api digest) "createPage" =
      some (.action (fun args app =>
        .tail (app.pages.createPage [arg args 0, pageInternals digest false]))) := by
  simp [createPagesActions, createBaseActions, extend, setProp, getProp]

theorem getProp_managed_updatePage {ρ : Type} (api : Api ρ) (digest : Val) :
    getProp (createManagedPagesActions api digest) "updatePage" =
      some (.action (fun args app =>
        .tail (app.pages.updatePage [arg args 0, pageInternals digest true]))) := by
  simp [createManagedPagesActions, createPagesActions, createBaseActions, extend, setProp,
    getProp]

/-- Actions are kept when every entry is. -/
theorem actions_kept {ρ : Type} (small large : Facade ρ)
    (h : ∀ k ∈ names small, getProp large k = getProp small k) (k : String) (f : Action ρ)
    (hf : getProp small k = some (.action f)) : ∃ g, getProp large k = some (.action g) :=
  ⟨f, by rw [h k (mem_names_of_getProp small k _ hf), hf]⟩

/-! ## Properties of the action façades -/

/-- C5 (amended): in the record returned by `createStoreActions`, the
deprecated `createReference(typeName, id)` does what `store.createReference`
does for every argument list, returning what the store's `createReference`
returns for the same two arguments; `makeTypeName(s)` does what
`createTypeName(s)` does whenever `s` is given (not `undefined`); when `s` is
omitted `makeTypeName` calls the store's `createTypeName` with `''` while
`createTypeName` calls it with `undefined`. -/
theorem storeActions_deprecated_aliases {ρ : Type} (env : Modules ρ) (api : Api ρ)
    (args : List Val) (app : App ρ) :
    callAction (createStoreActions env api) "createReference" args app =
        some (.tail (api.store.createReference [arg args 0, arg args 1])) ∧
      callMember (createStoreActions env api) "store" "createReference" args app =
        callAction (createStoreActions env api) "createReference" args app ∧
      callAction (createStoreActions env api) "createTypeName" args app =
        some (.tail (api.store.createTypeName [arg args 0])) ∧
      callAction (createStoreActions env api) "makeTypeName" args app =
        some (.tail (api.store.createTypeName [withDefault (arg args 0) (Val.str "")])) ∧
      (arg args 0 ≠ Val.undefined →
        callAction (createStoreActions env api) "makeTypeName" args app =
          callAction (createStoreActions env api) "createTypeName" args app) ∧
      (arg args 0 = Val.undefined →
        callAction (createStoreActions env api) "makeTypeName" args app =
          some (.tail (api.store.createTypeName [Val.str ""]))) := by
  have hmk : callAction (createStoreActions env api) "makeTypeName" args app =
      some (.tail (api.store.createTypeName [withDefault (arg args 0) (Val.str "")])) := by
    simp [callAction, createStoreActions, createBaseActions, extend, setProp, getProp]
  have hct : callAction (createStoreActions env api) "createTypeName" args app =
      some (.tail (api.store.createTypeName [arg args 0])) := by
    simp [callAction, createStoreActions, createBaseActions, extend, setProp, getProp]
  refine ⟨?_, ?_, hct, hmk, ?_, ?_⟩
  · simp [callAction, createStoreActions, createBaseActions, extend, setProp, getProp]
  · simp [callAction, callMember, createStoreActions, createBaseActions, extend, setProp,
      getProp]
  · intro hgiven
    rw [hmk, hct, withDefault_of_ne _ _ hgiven]
  · intro homitted
    rw [hmk, homitted]
    rfl

/-- C5 (counterexample): called with no argument, `makeTypeName` calls the
store's `createTypeName` with `''` and `createTypeName` calls it with
`undefined`. -/
theorem makeTypeName_omitted_differs :
    callAction (createStoreActions recordingModules recordingApi) "makeTypeName" []
        (recordingApp [] none) = some (.tail ⟨"store.createTypeName", [Val.str ""]⟩) ∧
      callAction (createStoreActions recordingModules recordingApi) "createTypeName" []
        (recordingApp [] none) = some (.tail ⟨"store.createTypeName", [Val.undefined]⟩) ∧
      callAction (createStoreActions recordingModules recordingApi) "makeTypeName" []
          (recordingApp [] none) ≠
        callAction (createStoreActions recordingModules recordingApi) "createTypeName" []
          (recordingApp [] none) := by
  have hmk : callAction (createStoreActions recordingModules recordingApi) "makeTypeName" []
      (recordingApp [] none) = some (.tail ⟨"store.createTypeName", [Val.str ""]⟩) := by
    simp [callAction, createStoreActions, createBaseActions, extend, setProp, getProp,
      recordingApi, arg, withDefault]
  have hct : callAction (createStoreActions recordingModules recordingApi) "createTypeName" []
      (recordingApp [] none) = some (.tail ⟨"store.createTypeName", [Val.undefined]⟩) := by
    simp [callAction, createStoreActions, createBaseActions, extend, setProp, getProp,
      recordingApi, arg]
  refine ⟨hmk, hct, ?_⟩
  rw [hmk, hct]
  simp

/-- C6: for every state of `app` and every argument `x` (and whatever further
arguments follow it), `addSchema(x)` completes leaving `app._schemas` equal to
its previous contents followed by `x`, `addSchemaTypes(x)` does the same to
`app._schemaTypes` and `addSchemaResolvers(x)` to `app._schemaResolvers`; each
leaves every other field of `app`, the other two lists among them, as it was,
and keeps the earlier entries of its own list in their order. Called with no
argument, each appends `undefined`. -/
theorem schemaActions_append {ρ : Type} (env : Modules ρ) (api : Api ρ)
    (x : Val) (rest : List Val) (app : App ρ) :
    (∃ app₁, callAction (createSchemaActions env api) "addSchema" (x :: rest) app =
          some (.ret Val.undefined app₁) ∧
        app₁ = { app with _schemas := app._schemas ++ [x] } ∧
        app₁._schemas = app._schemas ++ [x] ∧
        app₁._schemaTypes = app._schemaTypes ∧
        app₁._schemaResolvers = app._schemaResolvers ∧
        ∀ i : Nat, i < app._schemas.length → app₁._schemas[i]? = app._schemas[i]?) ∧
    (∃ app₂, callAction (createSchemaActions env api) "addSchemaTypes" (x :: rest) app =
          some (.ret Val.undefined app₂) ∧
        app₂ = { app with _schemaTypes := app._schemaTypes ++ [x] } ∧
        app₂._schemaTypes = app._schemaTypes ++ [x] ∧
        app₂._schemas = app._schemas ∧
        app₂._schemaResolvers = app._schemaResolvers ∧
        ∀ i : Nat, i < app._schemaTypes.length → app₂._schemaTypes[i]? = app._schemaTypes[i]?) ∧
    (∃ app₃, callAction (createSchemaActions env api) "addSchemaResolvers" (x :: rest) app =
          some (.ret Val.undefined app₃) ∧
        app₃ = { app with _schemaResolvers := app._schemaResolvers ++ [x] } ∧
        app₃._schemaResolvers = app._schemaResolvers ++ [x] ∧
        app₃._schemas = app._schemas ∧
        app₃._schemaTypes = app._schemaTypes ∧
        ∀ i : Nat, i < app._schemaResolvers.length →
          app₃._schemaResolvers[i]? = app._schemaResolvers[i]?) ∧
    callAction (createSchemaActions env api) "addSchema" [] app =
      some (.ret Val.undefined { app with _schemas := app._schemas ++ [Val.undefined] }) ∧
    callAction (createSchemaActions env api) "addSchemaTypes" [] app =
      some (.ret Val.undefined
        { app with _schemaTypes := app._schemaTypes ++ [Val.undefined] }) ∧
    callAction (createSchemaActions env api) "addSchemaResolvers" [] app =
      some (.ret Val.undefined
        { app with _schemaResolvers := app._schemaResolvers ++ [Val.undefined] }) := by
  refine ⟨⟨_, ?_, rfl, rfl, rfl, rfl, ?_⟩, ⟨_, ?_, rfl, rfl, rfl, rfl, ?_⟩,
    ⟨_, ?_, rfl, rfl, rfl, rfl, ?_⟩, ?_, ?_, ?_⟩
  · simp only [createSchemaActions, extend_append]
    simp [callAction, extend_cons, extend_nil, getProp_setProp, arg]
  · intro i hi
    exact List.getElem?_append_left hi
  · simp only [createSchemaActions, extend_append]
    simp [callAction, extend_cons, extend_nil, getProp_setProp, arg]
  · intro i hi
    exact List.getElem?_append_left hi
  · simp only [createSchemaActions, extend_append]
    simp [callAction, extend_cons, extend_nil, getProp_setProp, arg]
  · intro i hi
    exact List.getElem?_append_left hi
  · simp only [createSchemaActions, extend_append]
    simp [callAction, extend_cons, extend_nil, getProp_setProp, arg]
  · simp only [createSchemaActions, extend_append]
    simp [callAction, extend_cons, extend_nil, getProp_setProp, arg]
  · simp only [createSchemaActions, extend_append]
    simp [callAction, extend_cons, extend_nil, getProp_setProp, arg]

/-- C6 (witness): on an `app` with one entry in each list, `addSchema`,
`addSchemaTypes` and `addSchemaResolvers` called with a value and a second,
ignored argument. -/
theorem schemaActions_append_witness :
    (∃ app₁, callAction (createSchemaActions recordingModules recordingApi) "addSchema"
          [Val.ext "fragment", Val.str "ignored"] stockedApp = some (.ret Val.undefined app₁) ∧
        app₁._schemas = [Val.ext "schema0", Val.ext "fragment"] ∧
        app₁._schemaTypes = [Val.str "type A"] ∧
        app₁._schemaResolvers = [Val.ext "resolvers0"]) ∧
    (∃ app₂, callAction (createSchemaActions recordingModules recordingApi) "addSchemaTypes"
          [Val.ext "fragment", Val.str "ignored"] stockedApp = some (.ret Val.undefined app₂) ∧
        app₂._schemaTypes = [Val.str "type A", Val.ext "fragment"] ∧
        app₂._schemas = [Val.ext "schema0"] ∧
        app₂._schemaResolvers = [Val.ext "resolvers0"]) ∧
    (∃ app₃, callAction (createSchemaActions recordingModules recordingApi)
          "addSchemaResolvers" [Val.ext "fragment", Val.str "ignored"] stockedApp =
          some (.ret Val.undefined app₃) ∧
        app₃._schemaResolvers = [Val.ext "resolvers0", Val.ext "fragment"] ∧
        app₃._schemas = [Val.ext "schema0"] ∧
        app₃._schemaTypes = [Val.str "type A"]) := by
  obtain ⟨⟨app₁, h₁, -, hs₁, ht₁, hr₁, -⟩, ⟨app₂, h₂, -, ht₂, hs₂, hr₂, -⟩,
    ⟨app₃, h₃, -, hr₃, hs₃, ht₃, -⟩, -⟩ :=
    schemaActions_append recordingModules recordingApi (Val.ext "fragment")
      [Val.str "ignored"] stockedApp
  exact ⟨⟨app₁, h₁, hs₁, ht₁, hr₁⟩, ⟨app₂, h₂, ht₂, hs₂, hr₂⟩, ⟨app₃, h₃, hr₃, hs₃, ht₃⟩⟩

/-- C7: for every api, module exports and digest, the action names of each
façade strictly contain those of the façade it is built from: Store has every
name of Base, Schema every name of Store, Pages every name of Base, and
Managed-pages every name of Pages, each with at least one more name. -/
theorem facades_strictly_extend {ρ : Type} (env : Modules ρ) (api : Api ρ) (digest : Val) :
    StrictlyExtends (createBaseActions api) (createStoreActions env api) ∧
      StrictlyExtends (createStoreActions env api) (createSchemaActions env api) ∧
      StrictlyExtends (createBaseActions api) (createPagesActions api digest) ∧
      StrictlyExtends (createPagesActions api digest) (createManagedPagesActions api digest) := by
  refine ⟨⟨?_, actions_kept _ _ (store_additions_fresh env api), "addMetaData", _,
      getProp_store_addMetaData env api, ?_⟩,
    ⟨?_, actions_kept _ _ (schema_additions_fresh env api), "addSchema", _,
      getProp_schema_addSchema env api, ?_⟩,
    ⟨?_, actions_kept _ _ (pages_additions_fresh api digest), "createPage", _,
      getProp_pages_createPage api digest, ?_⟩,
    ⟨?_, ?_, "updatePage", _, getProp_managed_updatePage api digest, ?_⟩⟩
  · intro k hk
    rw [names_createBaseActions] at hk
    rw [names_createStoreActions]
    simp only [List.mem_cons] at hk ⊢
    tauto
  · simp [names_createBaseActions]
  · intro k hk
    unfold createSchemaActions
    exact (mem_names_extend _ _ k).mpr (Or.inl hk)
  · simp [names_createStoreActions]
  · intro k hk
    rw [names_createBaseActions] at hk
    rw [names_createPagesActions]
    simp only [List.mem_cons] at hk ⊢
    tauto
  · simp [names_createBaseActions]
  · intro k hk
    rw [names_createPagesActions] at hk
    rw [names_createManagedPagesActions]
    simp only [List.mem_cons] at hk ⊢
    tauto
  · intro k f hf
    by_cases hne : k = "createPage"
    · subst hne
      exact ⟨_, getProp_managed_createPage api digest⟩
    · refine ⟨f, ?_⟩
      rw [managed_additions_fresh api digest k (mem_names_of_getProp _ k _ hf) hne, hf]
  · simp [names_createPagesActions]

/-- C8 (amended): Store keeps every entry of Base, Schema every entry of
Store and Pages every entry of Base unchanged, so no action is overridden
there; Managed-pages keeps every entry of Pages unchanged except `createPage`,
which it overrides: in Pages it calls `app.pages.createPage(options,
{ digest, isManaged: false })`, in Managed-pages the same method with the same
options and digest and `isManaged: true`. -/
theorem facades_override_only_createPage {ρ : Type} (env : Modules ρ) (api : Api ρ)
    (digest : Val) :
    ((∀ k ∈ names (createBaseActions api),
          getProp (createStoreActions env api) k = getProp (createBaseActions api) k) ∧
        NeverOverrides (createBaseActions api) (createStoreActions env api)) ∧
      ((∀ k ∈ names (createStoreActions env api),
          getProp (createSchemaActions env api) k = getProp (createStoreActions env api) k) ∧
        NeverOverrides (createStoreActions env api) (createSchemaActions env api)) ∧
      ((∀ k ∈ names (createBaseActions api),
          getProp (createPagesActions api digest) k = getProp (createBaseActions api) k) ∧
        NeverOverrides (createBaseActions api) (createPagesActions api digest)) ∧
      ((∀ k ∈ names (createPagesActions api digest), k ≠ "createPage" →
          getProp (createManagedPagesActions api digest) k =
            getProp (createPagesActions api digest) k) ∧
        (∀ k, k ≠ "createPage" →
          AgreeOn (createPagesActions api digest) (createManagedPagesActions api digest) k)) ∧
      (∀ args app,
        callAction (createPagesActions api digest) "createPage" args app =
            some (.tail (app.pages.createPage [arg args 0, pageInternals digest false])) ∧
          callAction (createManagedPagesActions api digest) "createPage" args app =
            some (.tail (app.pages.createPage [arg args 0, pageInternals digest true]))) := by
  have hstore : ∀ k ∈ names (createBaseActions api),
      getProp (createStoreActions env api) k = getProp (createBaseActions api) k :=
    fun k hk => store_additions_fresh env api k hk
  have hschema : ∀ k ∈ names (createStoreActions env api),
      getProp (createSchemaActions env api) k = getProp (createStoreActions env api) k :=
    fun k hk => schema_additions_fresh env api k hk
  have hpages : ∀ k ∈ names (createBaseActions api),
      getProp (createPagesActions api digest) k = getProp (createBaseActions api) k :=
    fun k hk => pages_additions_fresh api digest k hk
  have hmanaged : ∀ k ∈ names (createPagesActions api digest), k ≠ "createPage" →
      getProp (createManagedPagesActions api digest) k =
        getProp (createPagesActions api digest) k :=
    fun k hk hne => managed_additions_fresh api digest k hk hne
  refine ⟨⟨hstore, neverOverrides_of_getProp_eq _ _ hstore⟩,
    ⟨hschema, neverOverrides_of_getProp_eq _ _ hschema⟩,
    ⟨hpages, neverOverrides_of_getProp_eq _ _ hpages⟩, ⟨hmanaged, ?_⟩, ?_⟩
  · intro k hne f g hf hg args app
    by_cases hk : k ∈ names (createPagesActions api digest)
    · rw [hmanaged k hk hne, hf] at hg
      cases hg
      rfl
    · rw [getProp_eq_none_of_not_mem _ k hk] at hf
      cases hf
  · intro args app
    constructor
    · simp [callAction, createPagesActions, createBaseActions, extend, setProp, getProp]
    · simp [callAction, createManagedPagesActions, createPagesActions, createBaseActions,
        extend, setProp, getProp]

/-- C8 (counterexample): `createPage` is in both the Pages and the
Managed-pages façade and the two do not make the same call: the internals
passed to `app.pages.createPage` have `isManaged: false` in one and
`isManaged: true` in the other. -/
theorem managedPages_overrides_createPage :
    callAction (createPagesActions recordingApi (Val.str "d")) "createPage"
        [Val.str "options"] (recordingApp [] none) =
        some (.tail ⟨"pages.createPage",
          [Val.str "options", Val.obj [("digest", Val.str "d"), ("isManaged", Val.bool false)]]⟩) ∧
      callAction (createManagedPagesActions recordingApi (Val.str "d")) "createPage"
        [Val.str "options"] (recordingApp [] none) =
        some (.tail ⟨"pages.createPage",
          [Val.str "options", Val.obj [("digest", Val.str "d"), ("isManaged", Val.bool true)]]⟩) ∧
      ¬ NeverOverrides (createPagesActions recordingApi (Val.str "d"))
        (createManagedPagesActions recordingApi (Val.str "d")) := by
  refine ⟨?_, ?_, ?_⟩
  · simp [callAction, createPagesActions, createBaseActions, extend, setProp, getProp,
      recordingApp, arg, pageInternals]
  · simp [callAction, createManagedPagesActions, createPagesActions, createBaseActions,
      extend, setProp, getProp, recordingApp, arg, pageInternals]
  · intro h
    have hagree := h "createPage" _ _
      (by simp [createPagesActions, createBaseActions, extend, setProp, getProp]; rfl)
      (by simp [createManagedPagesActions, createPagesActions, createBaseActions, extend,
        setProp, getProp]; rfl)
      [Val.str "options"] (recordingApp [] none)
    simp [recordingApp, pageInternals] at hagree

/-- C10: in the façade built by `createBaseActions`, and in every façade built
on it, the `graphql` action throws the error `actions.graphql() called before
schema is generated.` if and only if `app.schema` is not set; when it is set,
`graphql(doc, vars)` returns what `app.graphql(doc, vars)` returns, and
`graphql(doc)`, like `graphql(doc, undefined)`, what `app.graphql(doc, {})`
returns; the action itself never completes with a changed `app`. -/
theorem graphql_action {ρ : Type} (env : Modules ρ) (api : Api ρ) (digest : Val)
    (doc vars : Val) (rest : List Val) (app : App ρ) :
    (∀ args,
      callAction (createBaseActions api) "graphql" args app = some (graphqlAction args app) ∧
      callAction (createStoreActions env api) "graphql" args app =
        some (graphqlAction args app) ∧
      callAction (createSchemaActions env api) "graphql" args app =
        some (graphqlAction args app) ∧
      callAction (createPagesActions api digest) "graphql" args app =
        some (graphqlAction args app) ∧
      callAction (createManagedPagesActions api digest) "graphql" args app =
        some (graphqlAction args app)) ∧
    (∀ args, graphqlAction args app =
        .throw (.error "actions.graphql() called before schema is generated.") ↔
      app.schema = none) ∧
    (∀ schema, app.schema = some schema →
      (vars ≠ Val.undefined →
        graphqlAction (doc :: vars :: rest) app = .tail (app.graphql [doc, vars])) ∧
      graphqlAction (doc :: Val.undefined :: rest) app =
        .tail (app.graphql [doc, Val.obj []]) ∧
      graphqlAction [doc] app = .tail (app.graphql [doc, Val.obj []]) ∧
      graphqlAction [] app = .tail (app.graphql [Val.undefined, Val.obj []])) ∧
    (∀ args v app₁, graphqlAction args app ≠ .ret v app₁) := by
  have hschema : ∀ args, callAction (createSchemaActions env api) "graphql" args app =
      some (graphqlAction args app) := by
    intro args
    have hget := schema_additions_fresh env api "graphql" (by simp [names_createStoreActions])
    simp only [callAction, hget]
    simp [createStoreActions, createBaseActions, extend, setProp, getProp]
  refine ⟨fun args => ⟨?_, ?_, hschema args, ?_, ?_⟩, ?_, ?_, ?_⟩
  · simp [callAction, createBaseActions, extend, setProp, getProp]
  · simp [callAction, createStoreActions, createBaseActions, extend, setProp, getProp]
  · simp [callAction, createPagesActions, createBaseActions, extend, setProp, getProp]
  · simp [callAction, createManagedPagesActions, createPagesActions, createBaseActions,
      extend, setProp, getProp]
  · intro args
    cases hs : app.schema <;> simp [graphqlAction, hs]
  · intro schema hs
    refine ⟨?_, ?_, ?_, ?_⟩
    · intro hgiven
      simp [graphqlAction, hs, arg, withDefault_of_ne _ _ hgiven]
    · simp [graphqlAction, hs, arg, withDefault]
    · simp [graphqlAction, hs, arg, withDefault]
    · simp [graphqlAction, hs, arg, withDefault]
  · intro args v app₁
    cases hs : app.schema <;> simp [graphqlAction, hs]

/-- C10 (witness): on the Managed-pages façade, `graphql` with a document and
variables, with a document only, and before the schema is set. -/
theorem graphql_action_witness :
    callAction (createManagedPagesActions recordingApi (Val.str "d")) "graphql"
        [Val.str "query", Val.obj [("id", Val.num 1)], Val.str "ignored"] stockedApp =
      some (.tail ⟨"app.graphql", [Val.str "query", Val.obj [("id", Val.num 1)]]⟩) ∧
    callAction (createManagedPagesActions recordingApi (Val.str "d")) "graphql"
        [Val.str "query"] stockedApp =
      some (.tail ⟨"app.graphql", [Val.str "query", Val.obj []]⟩) ∧
    callAction (createSchemaActions recordingModules recordingApi) "graphql"
        [Val.str "query"] (recordingApp [] none) =
      some (.throw (.error "actions.graphql() called before schema is generated.")) := by
  obtain ⟨hcall, -, hset, -⟩ :=
    graphql_action recordingModules recordingApi (Val.str "d") (Val.str "query")
      (Val.obj [("id", Val.num 1)]) [Val.str "ignored"] stockedApp
  obtain ⟨hvars, -, hdoc, -⟩ := hset ⟨1⟩ rfl
  obtain ⟨-, hthrow, -, -⟩ :=
    graphql_action recordingModules recordingApi (Val.str "d") (Val.str "query")
      Val.undefined [] (recordingApp [] none)
  refine ⟨?_, ?_, ?_⟩
  · rw [(hcall _).2.2.2.2, hvars (by simp)]
    rfl
  · rw [(hcall _).2.2.2.2, hdoc]
    rfl
  · have hcall₂ := (graphql_action recordingModules recordingApi (Val.str "d")
      (Val.str "query") Val.undefined [] (recordingApp [] none)).1 [Val.str "query"]
    rw [hcall₂.2.2.1, (hthrow [Val.str "query"]).mpr rfl]

/-! ## Properties of the sanitized field names -/

theorem isIdentChar_replace (c : Char) :
    isIdentChar (if isIdentChar c then c else '_') = true := by
  have hu : isIdentChar '_' = true := by decide
  cases h : isIdentChar c
  · simpa using hu
  · simpa using h

theorem isValidChars_sanitizeChars (key : List Char) (h : key ≠ []) :
    isValidChars (sanitizeChars key) = true := by
  cases key with
  | nil => exact absurd rfl h
  | cons c rest =>
    have hall : ∀ l : List Char,
        (l.map (fun c => if isIdentChar c then c else '_')).all isIdentChar = true := by
      intro l
      simp only [List.all_eq_true, List.mem_map]
      rintro x ⟨y, -, rfl⟩
      exact isIdentChar_replace y
    have hu : (('_' : Char).isAlpha || ('_' : Char) == '_') = true := by decide
    cases hd : c.isDigit
    · have hrest := hall rest
      have hsan : sanitizeChars (c :: rest) =
          (if isIdentChar c then c else '_') ::
            rest.map (fun c => if isIdentChar c then c else '_') := by
        simp [sanitizeChars, hd]
      rw [hsan]
      simp only [isValidChars, hrest, Bool.and_true]
      cases hi : isIdentChar c
      · simp
      · simp only [isIdentChar, Char.isAlphanum, hd, Bool.or_false] at hi
        simpa using hi
    · have hrest := hall (c :: rest)
      have hsan : sanitizeChars (c :: rest) =
          '_' :: (c :: rest).map (fun c => if isIdentChar c then c else '_') := by
        simp [sanitizeChars, hd]
      rw [hsan]
      simp only [isValidChars, hrest, Bool.and_true]
      exact hu

theorem isValidName_sanitizeFieldName (key : String) (h : key ≠ "") :
    isValidName (sanitizeFieldName key) = true := by
  have hne : key.toList ≠ [] := by
    intro hnil
    apply h
    cases key with
    | mk data =>
      simp only [String.toList] at hnil
      subst hnil
      rfl
  exact isValidChars_sanitizeChars key.toList hne

theorem eq_of_no_collision {keys : List String} (h : hasCollision keys = false)
    {a b : String} (ha : a ∈ keys) (hb : b ∈ keys)
    (hab : sanitizeFieldName a = sanitizeFieldName b) : a = b := by
  by_contra hne
  have : hasCollision keys = true := by
    simp only [hasCollision, List.any_eq_true]
    exact ⟨a, ha, b, hb, by simp [hne, hab]⟩
  rw [h] at this
  cases this

theorem getProp_sanitized (keys all : List String) (hsub : ∀ k ∈ keys, k ∈ all)
    (h : hasCollision all = false) (key : String) (hkey : key ∈ keys) :
    getProp (keys.map (fun k => (sanitizeFieldName k, k))) (sanitizeFieldName key) =
      some key := by
  induction keys with
  | nil => cases hkey
  | cons k rest ih =>
    by_cases hk : sanitizeFieldName k = sanitizeFieldName key
    · have hmem : k ∈ all := hsub k (List.mem_cons_self _ _)
      have hmem' : key ∈ all := hsub key hkey
      have : k = key := eq_of_no_collision h hmem hmem' hk
      subst this
      simp [getProp]
    · have hrest : key ∈ rest := by
        rcases List.mem_cons.mp hkey with rfl | hr
        · exact absurd rfl hk
        · exact hr
      simp only [List.map_cons, getProp, hk, if_false]
      exact ih (fun k' hk' => hsub k' (List.mem_cons_of_mem _ hk')) hrest

theorem mem_rawKeys {nodes : List Node} {node : Node} {key : String} {value : Val}
    (hnode : node ∈ nodes) (hfield : getProp node key = some value) : key ∈ rawKeys nodes := by
  simp only [rawKeys, List.mem_dedup, List.mem_flatMap]
  exact ⟨node, hnode, mem_names_of_getProp node key value hfield⟩

/-- C9 (amended): for every node of a content type whose raw keys have
pairwise distinct sanitized names, and every field of the node, the field is
queryable under the sanitized name of its raw key (a valid identifier whenever
the key is not empty): with no custom resolver the query returns the value
stored under the raw key, and a resolver registered under the sanitized name,
through the resolver map or through a created object type, is applied to the
node as stored, with its original raw keys. -/
theorem sanitized_field_queryable (nodes : List Node) (node : Node) (key : String)
    (value : Val) (hnode : node ∈ nodes) (hfield : getProp node key = some value)
    (hdistinct : hasCollision (rawKeys nodes) = false) :
    (key ≠ "" → isValidName (sanitizeFieldName key) = true) ∧
      queryField nodes [] [] node (sanitizeFieldName key) = .ok value ∧
      (∀ created resolverMap,
        getProp resolverMap (sanitizeFieldName key) = none →
        getProp created (sanitizeFieldName key) = none →
        queryField nodes created resolverMap node (sanitizeFieldName key) = .ok value) ∧
      (∀ created resolverMap resolve,
        getProp resolverMap (sanitizeFieldName key) = some resolve →
        queryField nodes created resolverMap node (sanitizeFieldName key) =
          .ok (resolve node)) ∧
      (∀ created resolverMap resolve,
        getProp resolverMap (sanitizeFieldName key) = none →
        getProp created (sanitizeFieldName key) = some resolve →
        queryField nodes created resolverMap node (sanitizeFieldName key) =
          .ok (resolve node)) := by
  have hinfer : inferFields nodes =
      .ok ((rawKeys nodes).map (fun k => (sanitizeFieldName k, k))) := by
    simp [inferFields, hdistinct]
  have hlookup : getProp ((rawKeys nodes).map (fun k => (sanitizeFieldName k, k)))
      (sanitizeFieldName key) = some key :=
    getProp_sanitized (rawKeys nodes) (rawKeys nodes) (fun _ hk => hk) hdistinct key
      (mem_rawKeys hnode hfield)
  have hplain : ∀ created resolverMap,
      getProp resolverMap (sanitizeFieldName key) = none →
      getProp created (sanitizeFieldName key) = none →
      queryField nodes created resolverMap node (sanitizeFieldName key) = .ok value := by
    intro created resolverMap hmap hcreated
    simp [queryField, hinfer, hmap, hcreated, hlookup, hfield]
  refine ⟨isValidName_sanitizeFieldName key, hplain [] [] rfl rfl, hplain, ?_, ?_⟩
  · intro created resolverMap resolve hmap
    simp [queryField, hinfer, hmap]
  · intro created resolverMap resolve hmap hcreated
    simp [queryField, hinfer, hmap, hcreated]

/-- C9 (witness): the node of the test `add custom resolver for invalid field
names` and its raw key `456-test`. -/
theorem sanitized_field_queryable_witness :
    invalidNamesNode ∈ [invalidNamesNode] ∧
      getProp invalidNamesNode "456-test" = some (Val.num 4) ∧
      hasCollision (rawKeys [invalidNamesNode]) = false ∧
      sanitizeFieldName "456-test" = "_456_test" ∧
      queryField [invalidNamesNode] [] [] invalidNamesNode "_456_test" = .ok (Val.num 4) ∧
      queryField [invalidNamesNode] [("_123", plusSix "123")]
          [("_456_test", plusSix "456-test")] invalidNamesNode "_456_test" =
        .ok (Val.num 10) := by
  have h := sanitized_field_queryable [invalidNamesNode] invalidNamesNode "456-test"
    (Val.num 4) (by simp) rfl (by decide)
  have hname : sanitizeFieldName "456-test" = "_456_test" := by decide
  rw [hname] at h
  refine ⟨by simp, rfl, by decide, hname, h.2.1, ?_⟩
  have hres := h.2.2.2.1 [("_123", plusSix "123")] [("_456_test", plusSix "456-test")]
    (plusSix "456-test") (by simp [getProp])
  rw [hres]
  rfl

/-- C9 (counterexample): the raw keys `456-test` and `456_test` of one node
both have the sanitized name `_456_test`; schema building fails and the field
is not queryable. -/
theorem colliding_keys_not_queryable :
    getProp collidingNode "456-test" = some (Val.num 4) ∧
      isValidName "456-test" = false ∧
      sanitizeFieldName "456-test" = "_456_test" ∧
      sanitizeFieldName "456_test" = "_456_test" ∧
      queryField [collidingNode] [] [] collidingNode "_456_test" = .error .nameCollision := by
  refine ⟨rfl, by decide, by decide, by decide, ?_⟩
  have hcol : hasCollision (rawKeys [collidingNode]) = true := by decide
  simp [queryField, inferFields, hcol]

/-- The test `add custom resolver for invalid field names`, on the model: the
three fields `_123`, `_456_test` and `_789_test` all resolve to 10. -/
theorem invalid_field_names_test :
    queryField [invalidNamesNode] [("_123", plusSix "123")]
        [("_456_test", plusSix "456-test")] invalidNamesNode "_123" = .ok (Val.num 10) ∧
      queryField [invalidNamesNode] [("_123", plusSix "123")]
        [("_456_test", plusSix "456-test")] invalidNamesNode "_456_test" = .ok (Val.num 10) ∧
      queryField [invalidNamesNode] [("_123", plusSix "123")]
        [("_456_test", plusSix "456-test")] invalidNamesNode "_789_test" = .ok (Val.num 10) := by
  refine ⟨rfl, rfl, rfl⟩

end Gridsome
